import Mathlib

/-!
Verification of the simulation core of a grid-based factory game
(power networks, spatial grid, production cycles, command history,
progression, and checksummed persistence).

Numbers stored in JavaScript `number` fields are modelled as exact
rationals (`ℚ`); integer grid coordinates as `ℤ`; entity identifiers
and counters as `ℕ`.  JavaScript `Map` objects are modelled either as
association lists (with an explicit `alookup`) or, for string-keyed
count maps that are only read through `get(k) || 0`, as total
functions with default `0`.
-/

namespace Satisfactory

/-! ### Association-list primitives (model of JS `Map`) -/

/-- First-match lookup in an association list (JS `Map.get`). -/
def alookup {κ α : Type} [DecidableEq κ] : List (κ × α) → κ → Option α
  | [], _ => none
  | e :: es, k => if e.1 = k then some e.2 else alookup es k

/-- Model of `Map.set`: update the entry for `k` if present, otherwise
insert it. -/
def setAList {κ α : Type} [DecidableEq κ] (l : List (κ × α)) (k : κ) (v : α) :
    List (κ × α) :=
  if (alookup l k).isSome then l.map (fun e => if e.1 = k then (k, v) else e)
  else (k, v) :: l

/-! ### Power grid (`PowerGridSystem`), constants from `constants.ts` -/

def ALIEN_ENERGY_BONUS : ℚ := 3 / 10

def ALIEN_ENERGY_BASE_MW : ℚ := 500

/-- Runtime data for a power network (interface `PowerNetwork`).
The `id` and `entities` bookkeeping fields play no role in the claims
and are omitted; everything numeric is kept. -/
structure PowerNetwork where
  totalProduction : ℚ
  totalConsumption : ℚ
  totalStorage : ℚ
  storedEnergy : ℚ
  alienExtractorCount : ℕ
  effectiveProduction : ℚ
  isBlackedOut : Bool
deriving DecidableEq

/-- Model of `createNetwork`: a fresh network record (all totals zero,
powered). -/
def createNetwork : PowerNetwork :=
  { totalProduction := 0, totalConsumption := 0, totalStorage := 0
    storedEnergy := 0, alienExtractorCount := 0, effectiveProduction := 0
    isBlackedOut := false }

/-- One `PowerStorage` component: current charge and capacity (MWh). -/
structure StorageUnit where
  stored : ℚ
  capacity : ℚ
deriving DecidableEq

/-- The tally phase of `PowerGridSystem.update` for one network: the reset
loop zeroes `totalProduction`, `totalConsumption`, `totalStorage` and
`alienExtractorCount` — it does NOT reset `storedEnergy` — and the four
query loops then accumulate member entities with `+=`.  `gens` and `cons`
are the `currentPowerMW` values of the generators and consumers attached
to this network, `alienCount` the number of its alien extractors and
`units` its storage entities. -/
def tallyNetwork (net : PowerNetwork) (gens cons : List ℚ) (alienCount : ℕ)
    (units : List StorageUnit) : PowerNetwork :=
  { net with
    totalProduction := gens.sum + (alienCount : ℚ) * ALIEN_ENERGY_BASE_MW
    totalConsumption := cons.sum
    totalStorage := (units.map StorageUnit.capacity).sum
    storedEnergy := net.storedEnergy + (units.map StorageUnit.stored).sum
    alienExtractorCount := alienCount }

/-- Effective production with the alien bonus: each alien extractor adds
`ALIEN_ENERGY_BONUS` of the base (non-alien) production, linearly. -/
def effectiveStep (net : PowerNetwork) : PowerNetwork :=
  let baseProduction :=
    net.totalProduction - (net.alienExtractorCount : ℚ) * ALIEN_ENERGY_BASE_MW
  let alienBonus := baseProduction * ALIEN_ENERGY_BONUS * (net.alienExtractorCount : ℚ)
  { net with effectiveProduction := net.totalProduction + alienBonus }

/-- The blackout / storage charge step of `PowerGridSystem.update`
(the `surplus` computation and the two branches). -/
def blackoutStep (net : PowerNetwork) (dt : ℚ) : PowerNetwork :=
  let surplus := net.effectiveProduction - net.totalConsumption
  if surplus < 0 then
    let deficitMWh := |surplus| * (dt / 3600)
    if net.storedEnergy ≥ deficitMWh then
      { net with storedEnergy := net.storedEnergy - deficitMWh, isBlackedOut := false }
    else
      { net with storedEnergy := 0, isBlackedOut := true }
  else
    { net with
      isBlackedOut := false
      storedEnergy := min (net.storedEnergy + surplus * (dt / 3600)) net.totalStorage }

/-- Model of `updateStorageEntities`: redistribute the network charge across
its storage entities proportionally to capacity (no-op when capacity is 0). -/
def updateStorageEntities (net : PowerNetwork) (units : List StorageUnit) :
    List StorageUnit :=
  if net.totalStorage = 0 then units
  else units.map fun u =>
    { u with stored := net.storedEnergy * (u.capacity / net.totalStorage) }

/-- One full tick of `PowerGridSystem.update` for a single network:
tally, effective production, blackout/charge, then redistribution.
Returns the network record and its storage entities after the tick. -/
def updateNetwork (net : PowerNetwork) (gens cons : List ℚ) (alienCount : ℕ)
    (units : List StorageUnit) (dt : ℚ) : PowerNetwork × List StorageUnit :=
  let n := blackoutStep (effectiveStep (tallyNetwork net gens cons alienCount units)) dt
  (n, updateStorageEntities n units)

/-- Model of `isEntityBlackedOut`: a missing network reads as not blacked
out (`net?.isBlackedOut ?? false`). -/
def isEntityBlackedOut (networks : List (ℕ × PowerNetwork)) (networkId : ℕ) : Bool :=
  match alookup networks networkId with
  | some net => net.isBlackedOut
  | none => false

/-- The C1 claim's concrete network: 100 MW effective production, 150 MW
consumption, empty storage. -/
def c1net : PowerNetwork :=
  { totalProduction := 0, totalConsumption := 150, totalStorage := 0
    storedEnergy := 0, alienExtractorCount := 0, effectiveProduction := 100
    isBlackedOut := false }

/-! ### Spatial grid (`GridManager` / `Chunk`) -/

/-- Grid cell size of a chunk, from `constants.ts`. -/
def CHUNK_SIZE : ℤ := 32

/-- Integer grid coordinates (`GridPosition`): x, floor level y, z. -/
structure GridPosition where
  x : ℤ
  y : ℤ
  z : ℤ
deriving DecidableEq

/-- Chunk coordinate (`ChunkCoord`). -/
structure ChunkCoord where
  cx : ℤ
  cz : ℤ
deriving DecidableEq

/-- JS `%` on integers: the truncated remainder, taking the dividend's sign. -/
def jsMod (a b : ℤ) : ℤ := Int.tmod a b

/-- Model of `GridManager.positionToChunk`: `Math.floor(axis / CHUNK_SIZE)`.
For an integer axis value and positive integer chunk size, flooring the
real quotient is exactly integer floor division (`Int.fdiv`). -/
def positionToChunk (pos : GridPosition) : ChunkCoord :=
  ⟨Int.fdiv pos.x CHUNK_SIZE, Int.fdiv pos.z CHUNK_SIZE⟩

/-- Model of `GridManager.positionToLocal`: `axis % CHUNK_SIZE`, shifted by
`CHUNK_SIZE` when negative. -/
def positionToLocal (pos : GridPosition) : ℤ × ℤ :=
  let localX := jsMod pos.x CHUNK_SIZE
  let localZ := jsMod pos.z CHUNK_SIZE
  (if localX < 0 then localX + CHUNK_SIZE else localX,
   if localZ < 0 then localZ + CHUNK_SIZE else localZ)

/-- Data stored per grid cell (interface `GridCell`).  `rotation` is one of
0..3 (quarter turns). -/
structure GridCell where
  entityId : ℕ
  buildingType : String
  rotation : ℕ
deriving DecidableEq

/-- A lazily created floor array:
`new Array(CHUNK_SIZE * CHUNK_SIZE).fill(null)`. -/
def emptyFloor : List (Option GridCell) := List.replicate (32 * 32) none

/-- Flat floor-array index `localZ * CHUNK_SIZE + localX`
(`Chunk.localIndex`). -/
def localIndex (localX localZ : ℤ) : ℤ := localZ * CHUNK_SIZE + localX

/-- A chunk (class `Chunk`): `cells` maps a floor level y to a flat array of
`CHUNK_SIZE × CHUNK_SIZE` optional cell records; floors are created lazily. -/
structure Chunk where
  cx : ℤ
  cz : ℤ
  cells : List (ℤ × List (Option GridCell))
deriving DecidableEq

/-- Model of `Chunk.getCell`: a missing floor reads as empty; an
out-of-range index reads as empty (`?? null`).  A negative index would
read a non-element JS property, which is always `undefined`, hence
also empty. -/
def Chunk.getCell (c : Chunk) (localX localZ y : ℤ) : Option GridCell :=
  match alookup c.cells y with
  | none => none
  | some f =>
    if 0 ≤ localIndex localX localZ then f.getD (localIndex localX localZ).toNat none
    else none

/-- Model of `Chunk.setCell`: get or lazily create the floor (`getFloor`),
then write the flat index in place.  A negative index would create a
non-element JS property invisible to element reads; it is modelled as a
no-op (local coordinates produced by `positionToLocal` are always in
range). -/
def Chunk.setCell (c : Chunk) (localX localZ y : ℤ) (cell : Option GridCell) : Chunk :=
  let write : List (Option GridCell) → List (Option GridCell) := fun f =>
    if 0 ≤ localIndex localX localZ then f.set (localIndex localX localZ).toNat cell else f
  match alookup c.cells y with
  | some f => { c with cells := c.cells.map fun e => if e.1 = y then (y, write f) else e }
  | none => { c with cells := (y, write emptyFloor) :: c.cells }

/-- The grid manager (class `GridManager`): chunks keyed by the string
`"cx,cz"`, modelled by the (equally injective) pair `(cx, cz)`. -/
structure GridManager where
  chunks : List ((ℤ × ℤ) × Chunk)
deriving DecidableEq

/-- Model of `this.getChunk(cx, cz)` (get or lazily create) followed by an
in-place mutation of the returned chunk reference. -/
def GridManager.modifyChunk (g : GridManager) (cx cz : ℤ) (f : Chunk → Chunk) :
    GridManager :=
  match alookup g.chunks (cx, cz) with
  | some c => { chunks := g.chunks.map fun e => if e.1 = (cx, cz) then ((cx, cz), f c) else e }
  | none => { chunks := ((cx, cz), f ⟨cx, cz, []⟩) :: g.chunks }

/-- Model of `GridManager.isOccupied`: `chunk.getCell(...) !== null`, with a
missing chunk reading as free. -/
def GridManager.isOccupied (g : GridManager) (pos : GridPosition) : Bool :=
  match alookup g.chunks ((positionToChunk pos).cx, (positionToChunk pos).cz) with
  | none => false
  | some chunk => (chunk.getCell (positionToLocal pos).1 (positionToLocal pos).2 pos.y).isSome

/-- Model of `GridManager.canPlace`: every covered cell of the footprint on
the entity's floor must be free. -/
def GridManager.canPlace (g : GridManager) (pos : GridPosition) (sizeX sizeZ : ℕ) : Bool :=
  (List.range sizeX).all fun (dx : ℕ) =>
    (List.range sizeZ).all fun (dz : ℕ) =>
      ! g.isOccupied ⟨pos.x + (dx : ℤ), pos.y, pos.z + (dz : ℤ)⟩

/-- The body of `placeEntity`'s write loop for one covered cell. -/
def GridManager.setCellAt (g : GridManager) (p : GridPosition) (cell : Option GridCell) :
    GridManager :=
  g.modifyChunk (positionToChunk p).cx (positionToChunk p).cz
    (fun ch => ch.setCell (positionToLocal p).1 (positionToLocal p).2 p.y cell)

/-- The covered cells `{(x+dx, y, z+dz) : 0 ≤ dx < sizeX, 0 ≤ dz < sizeZ}`
in the write loop's iteration order (dx outer, dz inner). -/
def footprint (pos : GridPosition) (sizeX sizeZ : ℕ) : List GridPosition :=
  (List.range sizeX).flatMap fun (dx : ℕ) =>
    (List.range sizeZ).map fun (dz : ℕ) => ⟨pos.x + (dx : ℤ), pos.y, pos.z + (dz : ℤ)⟩

/-- Model of `GridManager.placeEntity`: check the whole footprint first,
then write every covered cell. -/
def GridManager.placeEntity (g : GridManager) (pos : GridPosition) (sizeX sizeZ : ℕ)
    (entityId : ℕ) (buildingType : String) (rotation : ℕ) : Bool × GridManager :=
  if ! g.canPlace pos sizeX sizeZ then (false, g)
  else
    (true, (footprint pos sizeX sizeZ).foldl
      (fun acc cellPos =>
        acc.setCellAt cellPos (some ⟨entityId, buildingType, rotation⟩)) g)

/-- Model of `GridManager.getCellAt`. -/
def GridManager.getCellAt (g : GridManager) (pos : GridPosition) : Option GridCell :=
  match alookup g.chunks ((positionToChunk pos).cx, (positionToChunk pos).cz) with
  | none => none
  | some chunk => chunk.getCell (positionToLocal pos).1 (positionToLocal pos).2 pos.y

/-- Every floor array of a chunk has the allocated length `CHUNK_SIZE²`.
This holds for every chunk the implementation ever builds (floors are
created only by `getFloor`, and writes preserve the length). -/
def Chunk.WF (c : Chunk) : Prop :=
  ∀ e ∈ c.cells, (e.2 : List (Option GridCell)).length = 32 * 32

/-- Well-formedness of a grid manager: all floors have their allocated
length. -/
def GridManager.WF (g : GridManager) : Prop := ∀ e ∈ g.chunks, Chunk.WF e.2

/-- The empty grid manager (a fresh `GridManager`, no chunks loaded). -/
def emptyGrid : GridManager := ⟨[]⟩

/-! ### Production (`ProductionSystem`), constants from `types.ts` -/

def POWER_SHARD_bonusPerSlot : ℚ := 1 / 2

def POWER_SHARD_maxMultiplier : ℚ := 5 / 2

def MAX_OUTPUT_BUFFER : ℚ := 100

/-- One recipe cost or product entry (interface `RecipeIngredient`). -/
structure RecipeIngredient where
  itemId : String
  amount : ℚ
deriving DecidableEq

/-- Recipe runtime data (interface `RuntimeRecipe`). -/
structure RuntimeRecipe where
  id : String
  duration : ℚ
  ingredients : List RecipeIngredient
  products : List RecipeIngredient

/-- Per-entity machine buffer (interface `MachineBuffer`); the JS maps are
read only through `get(id) || 0`, so they are modelled as total functions
with default 0. -/
structure MachineBuffer where
  inputSlots : String → ℚ
  outputSlots : String → ℚ

/-- The `Producer` component fields of one entity.  `isActive` is stored as
a 0/1 byte in the component array and modelled as `Bool`. -/
structure ProducerState where
  recipeId : ℕ
  progress : ℚ
  powerShards : ℕ
  speedMultiplier : ℚ
  isActive : Bool

/-- The `PowerConsumer` component fields of one entity. -/
structure PowerConsumerState where
  basePowerMW : ℚ
  currentPowerMW : ℚ
  networkId : ℕ

/-- The state touched by one producer tick. -/
structure ProducerTickResult where
  producer : ProducerState
  consumer : PowerConsumerState
  buffer : MachineBuffer

/-- Model of `hasIngredients`: every required quantity is available. -/
def hasIngredients (buffer : MachineBuffer) (recipe : RuntimeRecipe) : Bool :=
  recipe.ingredients.all fun ing => decide (ing.amount ≤ buffer.inputSlots ing.itemId)

/-- Model of `consumeIngredients`: subtract every required quantity. -/
def consumeIngredients (buffer : MachineBuffer) (recipe : RuntimeRecipe) : MachineBuffer :=
  { buffer with inputSlots :=
      (recipe.ingredients.foldl
        (fun slots ing => Function.update slots ing.itemId (slots ing.itemId - ing.amount))
        buffer.inputSlots) }

/-- Model of `canOutput`: no product may push its output slot past
`MAX_OUTPUT_BUFFER`. -/
def canOutput (buffer : MachineBuffer) (recipe : RuntimeRecipe) : Bool :=
  recipe.products.all fun prod =>
    ! decide (MAX_OUTPUT_BUFFER < buffer.outputSlots prod.itemId + prod.amount)

/-- Model of `produceOutputs`: add every product quantity. -/
def produceOutputs (buffer : MachineBuffer) (recipe : RuntimeRecipe) : MachineBuffer :=
  { buffer with outputSlots :=
      (recipe.products.foldl
        (fun slots prod => Function.update slots prod.itemId (slots prod.itemId + prod.amount))
        buffer.outputSlots) }

/-- The tail of `processProducer` once the machine is running: mark active,
advance progress by `(dt / duration) * speedMultiplier`, and on reaching
1.0 reset progress and emit the outputs. -/
def advanceProducer (recipe : RuntimeRecipe) (speedMultiplier : ℚ) (p : ProducerState)
    (c : PowerConsumerState) (buffer : MachineBuffer) (dt : ℚ) : ProducerTickResult :=
  let p := { p with isActive := true
                    progress := p.progress + (dt / recipe.duration) * speedMultiplier }
  if 1 ≤ p.progress then
    ⟨{ p with progress := 0 }, c, produceOutputs buffer recipe⟩
  else ⟨p, c, buffer⟩

/-- Model of `ProductionSystem.processProducer`.  `recipes` is the recipe
registry (index → recipe); `powCurve` models the transcendental
`Math.pow(speedMultiplier, 1.6)` power-cost curve, which only feeds the
reported power draw and is left abstract. -/
def processProducer (recipes : ℕ → Option RuntimeRecipe) (powCurve : ℚ → ℚ)
    (p : ProducerState) (c : PowerConsumerState) (buffer : MachineBuffer) (dt : ℚ) :
    ProducerTickResult :=
  match recipes p.recipeId with
  | none => ⟨{ p with isActive := false }, c, buffer⟩
  | some recipe =>
    let shardBonus := (p.powerShards : ℚ) * POWER_SHARD_bonusPerSlot
    let speedMultiplier := min (1 + shardBonus) POWER_SHARD_maxMultiplier
    let p := { p with speedMultiplier := speedMultiplier }
    let c := if 0 < c.basePowerMW
      then { c with currentPowerMW := c.basePowerMW * powCurve speedMultiplier }
      else c
    if canOutput buffer recipe then
      if p.progress = 0 then
        if hasIngredients buffer recipe then
          advanceProducer recipe speedMultiplier p c (consumeIngredients buffer recipe) dt
        else ⟨{ p with isActive := false }, c, buffer⟩
      else advanceProducer recipe speedMultiplier p c buffer dt
    else ⟨{ p with isActive := false }, c, buffer⟩

/-- The per-producer body of `ProductionSystem.update`: a power-requiring
machine on a blacked-out network is stopped (inactive, zero draw) before
`processProducer` ever runs; otherwise the production cycle proceeds.
`basePowerMW !== undefined` is always true for a typed component array, so
`needsPower` reduces to `basePowerMW > 0`. -/
def updateProducerEntity (networks : List (ℕ × PowerNetwork))
    (recipes : ℕ → Option RuntimeRecipe) (powCurve : ℚ → ℚ)
    (p : ProducerState) (c : PowerConsumerState) (buffer : MachineBuffer) (dt : ℚ) :
    ProducerTickResult :=
  let needsPower := decide (0 < c.basePowerMW)
  if needsPower && isEntityBlackedOut networks c.networkId then
    ⟨{ p with isActive := false }, { c with currentPowerMW := 0 }, buffer⟩
  else processProducer recipes powCurve p c buffer dt

/-- Concrete recipe for the C4 witness: 5 ore to 1 ingot in 2 s. -/
def oreRecipe : RuntimeRecipe :=
  { id := "ingot", duration := 2
    ingredients := [⟨"ore", 5⟩], products := [⟨"ingot", 1⟩] }

/-- Concrete buffer for the C4 witness: 3 ore in the input, empty output. -/
def threeOreBuffer : MachineBuffer :=
  ⟨Function.update (fun _ => 0) "ore" 3, fun _ => 0⟩

/-- Concrete producer for the C4 and C10 witnesses: recipe index 0, at the
start of a cycle, no shards. -/
def idleProducer : ProducerState :=
  { recipeId := 0, progress := 0, powerShards := 0, speedMultiplier := 1, isActive := false }

/-- Concrete consumer for the C4 and C10 witnesses: 4 MW base draw on
network 7. -/
def demoConsumer : PowerConsumerState :=
  { basePowerMW := 4, currentPowerMW := 4, networkId := 7 }

/-- Concrete recipe registry for the C4 and C10 witnesses. -/
def demoRecipes : ℕ → Option RuntimeRecipe :=
  fun i => if i = 0 then some oreRecipe else none

/-! ### Command history (`CommandHistory`) -/

/-- A reversible command: `apply` models `execute()` (`none` = returned
false, in which case the command mutated nothing), `revert` models
`undo()`. -/
structure Cmd (σ : Type) where
  apply : σ → Option σ
  revert : σ → σ

/-- Model of `CommandHistory`: the undo/redo stacks (most recent first —
the top of the JS array is the head here) and the world state the
commands mutate. -/
structure CommandHistory (σ : Type) where
  undoStack : List (Cmd σ)
  redoStack : List (Cmd σ)
  world : σ

/-- Bound on the undo history (`maxHistory`). -/
def maxHistory : ℕ := 100

/-- Model of `CommandHistory.execute`: on success push onto the undo stack,
clear the redo stack and evict the oldest entry past `maxHistory`; on
failure leave everything unchanged. -/
def CommandHistory.execute {σ : Type} (h : CommandHistory σ) (c : Cmd σ) :
    Bool × CommandHistory σ :=
  match c.apply h.world with
  | none => (false, h)
  | some w =>
    let undoStack := c :: h.undoStack
    let undoStack := if maxHistory < undoStack.length then undoStack.dropLast else undoStack
    (true, { undoStack := undoStack, redoStack := [], world := w })

/-- Model of `CommandHistory.undo`: pop the most recent command, revert it,
push it onto the redo stack; no-op returning false on an empty stack. -/
def CommandHistory.undo {σ : Type} (h : CommandHistory σ) : Bool × CommandHistory σ :=
  match h.undoStack with
  | [] => (false, h)
  | c :: rest =>
    (true, { undoStack := rest, redoStack := c :: h.redoStack, world := c.revert h.world })

/-- Model of `CommandHistory.redo`: pop the most recent redone command and
re-apply it; on failure the command is dropped (pushed to neither stack). -/
def CommandHistory.redo {σ : Type} (h : CommandHistory σ) : Bool × CommandHistory σ :=
  match h.redoStack with
  | [] => (false, h)
  | c :: rest =>
    match c.apply h.world with
    | some w =>
      (true, { undoStack := c :: h.undoStack, redoStack := rest, world := w })
    | none => (false, { h with redoStack := rest })

/-- A fresh history over an initial world. -/
def mkHistory {σ : Type} (w : σ) : CommandHistory σ :=
  { undoStack := [], redoStack := [], world := w }

/-- Concrete increment command on ℕ for the C5 witness. -/
def incCmd : Cmd ℕ := ⟨fun n => some (n + 1), fun n => n - 1⟩

/-- Concrete doubling command on ℕ for the C5 witness. -/
def doubleCmd : Cmd ℕ := ⟨fun n => some (2 * n), fun n => n / 2⟩

/-! ### Persistence (`SaveManager`), constants from `constants.ts` -/

def MAX_SAVE_SLOTS : ℕ := 5

def SAVE_VERSION : ℤ := 1

/-- JS `| 0`: wrap an integer to a signed 32-bit value. -/
def toInt32 (n : ℤ) : ℤ := (n + 2 ^ 31) % 2 ^ 32 - 2 ^ 31

/-- One step of `computeChecksum`: `hash = ((hash << 5) - hash) + char`
followed by `hash |= 0`.  `hash` is already a 32-bit value, so `<< 5`
wraps to 32 bits before the exact subtraction and addition. -/
def checksumStep (hash : ℤ) (c : ℕ) : ℤ := toInt32 (toInt32 (hash * 32) - hash + c)

/-- Model of `SaveManager.computeChecksum` over a character-code sequence.
The JS code renders the resulting 32-bit value as a hex string, an
injective rendering, so the integer value itself is kept. -/
def computeChecksum (data : List ℕ) : ℤ := data.foldl checksumStep 0

/-- A parsed save record (interface `SaveData`): version, timestamp and
checksum are kept as fields; `payload` stands for the character codes of
all the remaining serialized content (entities, inventories, camera …). -/
structure SaveData where
  version : ℤ
  timestamp : ℤ
  checksum : ℤ
  payload : List ℕ
deriving DecidableEq

/-- Character codes of the decimal rendering of an integer. -/
def encodeInt (n : ℤ) : List ℕ := (toString n).toList.map Char.toNat

/-- Model of `JSON.stringify(data)` with the checksum field cleared to the
empty string: an injective rendering of every field except `checksum`
(44 is the comma separator). -/
def serializeWithoutChecksum (d : SaveData) : List ℕ :=
  encodeInt d.version ++ [44] ++ encodeInt d.timestamp ++ [44] ++ d.payload

/-- A record validates when the checksum recomputed over its serialized
form with the checksum field cleared equals the stored checksum. -/
def validSave (d : SaveData) : Bool :=
  decide (computeChecksum (serializeWithoutChecksum d) = d.checksum)

/-- The storage adapter state: `slots.getD i none` is slot `i`'s parsed
record (`none` = key absent, or `JSON.parse` threw); `meta` is the parsed
`save_meta.lastSlot` (`none` = metadata missing or unparseable). -/
structure SaveStore where
  slots : List (Option SaveData)
  meta : Option ℕ

/-- Model of `SaveManager.save`: stamp version and timestamp, compute the
checksum over the serialized record with the checksum cleared, write the
current slot and the metadata record, and advance the slot pointer
modulo `MAX_SAVE_SLOTS`. -/
def saveStep (store : SaveStore) (currentSlot : ℕ) (d0 : SaveData) (now : ℤ) :
    SaveStore × ℕ :=
  let d1 := { d0 with version := SAVE_VERSION, timestamp := now }
  let d := { d1 with checksum := computeChecksum (serializeWithoutChecksum d1) }
  ({ slots := store.slots.set currentSlot (some d), meta := some currentSlot },
   (currentSlot + 1) % MAX_SAVE_SLOTS)

/-- The slots probed by `load`, most recent first:
`(startSlot - i + MAX_SAVE_SLOTS) % MAX_SAVE_SLOTS` for `i = 0 .. 4`. -/
def probeSequence (startSlot : ℕ) : List ℕ :=
  (List.range MAX_SAVE_SLOTS).map fun i => (startSlot + MAX_SAVE_SLOTS - i) % MAX_SAVE_SLOTS

/-- The loop body of `SaveManager.load`: skip missing/unparseable slots and
slots whose stored checksum does not match the recomputed one; return the
first record that validates together with the advanced slot pointer. -/
def loadWalk (store : SaveStore) : List ℕ → Option (SaveData × ℕ)
  | [] => none
  | slot :: rest =>
    match store.slots.getD slot none with
    | none => loadWalk store rest
    | some d =>
      if validSave d then some (d, (slot + 1) % MAX_SAVE_SLOTS)
      else loadWalk store rest

/-- Model of `SaveManager.load`: start from the metadata slot (0 when the
metadata is missing or unparseable) and walk backward through all slots. -/
def load (store : SaveStore) : Option (SaveData × ℕ) :=
  loadWalk store (probeSequence (store.meta.getD 0))

/-- Demo data for the C6 witness: empty store. -/
def demoStore0 : SaveStore := ⟨List.replicate 5 none, none⟩

/-- Demo: first save (payload `[65]` at time 11) lands in slot 0. -/
def demoSavedA : SaveStore × ℕ := saveStep demoStore0 0 ⟨0, 0, 0, [65]⟩ 11

/-- Demo: second save (payload `[66]` at time 22) lands in slot 1. -/
def demoSavedB : SaveStore × ℕ := saveStep demoSavedA.1 demoSavedA.2 ⟨0, 0, 0, [66]⟩ 22

/-- Demo: the second save's stored checksum corrupted by one (a one-byte
corruption of the checksum field). -/
def demoCorrupt : SaveStore :=
  { demoSavedB.1 with slots :=
      (demoSavedB.1.slots.set 1
        (match demoSavedB.1.slots.getD 1 none with
         | some d => some { d with checksum := d.checksum + 1 }
         | none => none)) }

/-! ### Progression (`ProgressionSystem` / `InventorySystem`) -/

/-- A milestone definition (interface `MilestoneDefinition`); fields not
consulted by delivery or unlocking are omitted. -/
structure MilestoneDefinition where
  id : String
  tier : ℤ
  cost : List RecipeIngredient
  unlockedRecipes : List String
  unlockedBuildings : List String

/-- Per-milestone delivery progress (interface `MilestoneProgress`); the
`delivered` map is read only through `get(id) || 0`. -/
structure MilestoneProgress where
  delivered : String → ℚ
  isComplete : Bool

/-- The `ProgressionSystem` state consulted by milestone delivery.  The JS
`Set`s of unlocked ids are lists queried only through membership. -/
structure ProgressionState where
  milestones : List MilestoneDefinition
  unlockedMilestones : List String
  unlockedRecipes : List String
  unlockedBuildings : List String
  milestoneProgress : List (String × MilestoneProgress)

/-- A fresh milestone progress record. -/
def freshProgress : MilestoneProgress := ⟨fun _ => 0, false⟩

/-- Model of `InventorySystem.removeFromPlayer`: remove
`min(current, amount)`; deleting an emptied key is extensionally the same
as storing 0. -/
def removeFromPlayer (inv : String → ℚ) (itemId : String) (amount : ℚ) :
    ℚ × (String → ℚ) :=
  let current := inv itemId
  let removed := min current amount
  if 0 < removed then (removed, Function.update inv itemId (current - removed))
  else (removed, inv)

/-- Model of `unlockMilestone`: no-op when already unlocked or unknown;
otherwise record the milestone and its unlocked recipes and buildings. -/
def unlockMilestone (st : ProgressionState) (milestoneId : String) :
    Bool × ProgressionState :=
  if st.unlockedMilestones.contains milestoneId then (false, st)
  else
    match st.milestones.find? (fun m => m.id == milestoneId) with
    | none => (false, st)
    | some milestone =>
      (true, { st with
        unlockedMilestones := milestoneId :: st.unlockedMilestones
        unlockedRecipes := milestone.unlockedRecipes ++ st.unlockedRecipes
        unlockedBuildings := milestone.unlockedBuildings ++ st.unlockedBuildings })

/-- The completion check of `deliverToMilestone`:
`milestone.cost.every(c => delivered(c.itemId) >= c.amount)`. -/
def costFilled (milestone : MilestoneDefinition) (pr : MilestoneProgress) : Bool :=
  milestone.cost.all fun c => decide (c.amount ≤ pr.delivered c.itemId)

/-- The body of `deliverToMilestone` once the milestone and its (possibly
freshly inserted) progress record are resolved: return 0 when already
complete or the item is not a cost item; otherwise deliver
`min(amount, stillNeeded)` capped by the inventory, tally it, and when
every cost item has reached its requirement mark the milestone complete
and unlock it. -/
def deliverCore (st : ProgressionState) (milestone : MilestoneDefinition)
    (progress : MilestoneProgress) (milestoneId itemId : String) (amount : ℚ)
    (inv : String → ℚ) : ℚ × ProgressionState × (String → ℚ) :=
  if progress.isComplete then (0, st, inv)
  else
    match milestone.cost.find? (fun c => c.itemId == itemId) with
    | none => (0, st, inv)
    | some requirement =>
      let alreadyDelivered := progress.delivered itemId
      let stillNeeded := requirement.amount - alreadyDelivered
      let toDeliver := min amount stillNeeded
      if toDeliver ≤ 0 then (0, st, inv)
      else
        let rr := removeFromPlayer inv itemId toDeliver
        let progress :=
          if 0 < rr.1 then
            { progress with delivered :=
                Function.update progress.delivered itemId (alreadyDelivered + rr.1) }
          else progress
        let allDelivered := costFilled milestone progress
        let progress := if allDelivered then { progress with isComplete := true } else progress
        let st :=
          { st with milestoneProgress := setAList st.milestoneProgress milestoneId progress }
        let st := if allDelivered then (unlockMilestone st milestoneId).2 else st
        (rr.1, st, rr.2)

/-- Model of `ProgressionSystem.deliverToMilestone`: find the milestone
(0 when unknown), get or lazily create-and-insert its progress record, and
run the delivery body.  Returns the removed quantity, the new progression
state and the new player inventory; the function is total (never throws). -/
def deliverToMilestone (st : ProgressionState) (milestoneId itemId : String)
    (amount : ℚ) (inv : String → ℚ) : ℚ × ProgressionState × (String → ℚ) :=
  match st.milestones.find? (fun m => m.id == milestoneId) with
  | none => (0, st, inv)
  | some milestone =>
    match alookup st.milestoneProgress milestoneId with
    | some p => deliverCore st milestone p milestoneId itemId amount inv
    | none =>
      deliverCore
        { st with milestoneProgress := (milestoneId, freshProgress) :: st.milestoneProgress }
        milestone freshProgress milestoneId itemId amount inv

/-- The progress record the system reads for a milestone (absent = fresh). -/
def progressOf (st : ProgressionState) (milestoneId : String) : MilestoneProgress :=
  (alookup st.milestoneProgress milestoneId).getD freshProgress

/-- Concrete milestone for the C9 witness. -/
def demoMilestone : MilestoneDefinition :=
  { id := "hub1", tier := 0, cost := [⟨"iron", 10⟩, ⟨"rod", 4⟩]
    unlockedRecipes := ["r1"], unlockedBuildings := ["b1"] }

/-- Concrete progression state for the C9 witness. -/
def demoProgression : ProgressionState :=
  { milestones := [demoMilestone], unlockedMilestones := []
    unlockedRecipes := [], unlockedBuildings := [], milestoneProgress := [] }

/-- Concrete inventory for the C9 witness: 20 iron. -/
def demoInv : String → ℚ := Function.update (fun _ => 0) "iron" 20

/-! ## Theorems -/

/-! ### Association lists -/

theorem alookup_map_set_self {κ α : Type} [DecidableEq κ]
    (l : List (κ × α)) (k : κ) (v : α) :
    alookup (l.map fun e => if e.1 = k then (k, v) else e) k =
      if (alookup l k).isSome then some v else none := by
  induction l with
  | nil => simp [alookup]
  | cons e es ih =>
    by_cases he : e.1 = k
    · simp [alookup, he]
    · simp [alookup, he, ih]

theorem alookup_map_set_other {κ α : Type} [DecidableEq κ]
    (l : List (κ × α)) (k k' : κ) (v : α) (hk : k' ≠ k) :
    alookup (l.map fun e => if e.1 = k then (k, v) else e) k' = alookup l k' := by
  induction l with
  | nil => simp [alookup]
  | cons e es ih =>
    by_cases he : e.1 = k
    · simp [alookup, he, Ne.symm hk, ih]
    · simp [alookup, he, ih]

theorem alookup_setAList_self {κ α : Type} [DecidableEq κ]
    (l : List (κ × α)) (k : κ) (v : α) : alookup (setAList l k v) k = some v := by
  unfold setAList
  split
  · rename_i h
    rw [alookup_map_set_self, if_pos h]
  · simp [alookup]

theorem alookup_setAList_other {κ α : Type} [DecidableEq κ]
    (l : List (κ × α)) (k k' : κ) (v : α) (hk : k' ≠ k) :
    alookup (setAList l k v) k' = alookup l k' := by
  unfold setAList
  split
  · exact alookup_map_set_other l k k' v hk
  · simp [alookup, Ne.symm hk]

theorem alookup_mem {κ α : Type} [DecidableEq κ]
    {l : List (κ × α)} {k : κ} {v : α} (h : alookup l k = some v) : (k, v) ∈ l := by
  induction l with
  | nil => simp [alookup] at h
  | cons e es ih =>
    by_cases he : e.1 = k
    · simp only [alookup, if_pos he] at h
      obtain ⟨e1, e2⟩ := e
      obtain rfl : e2 = v := by injection h
      obtain rfl : e1 = k := he
      exact List.mem_cons_self _ _
    · simp only [alookup, if_neg he] at h
      exact List.mem_cons_of_mem _ (ih h)

/-! ### Power grid: C1, C7, C3 -/

/-- C1: per-network blackout/storage dynamics of `PowerGridSystem.update`.
With `surplus = effectiveProduction - totalConsumption`: a non-negative
surplus leaves the network powered and charges storage by
`surplus * (dt/3600)` MWh clamped to capacity; a deficit draws
`|surplus| * (dt/3600)` MWh from storage when available (network stays
powered), and otherwise drains storage to 0 and raises the blackout flag.
The final conjunct is the concrete instance: 100 MW effective production
against 150 MW consumption with empty storage over 60 s blacks out with
storage still 0. -/
theorem blackout_storage_dynamics (net : PowerNetwork) (dt : ℚ) :
    (0 ≤ net.effectiveProduction - net.totalConsumption →
      (blackoutStep net dt).isBlackedOut = false ∧
      (blackoutStep net dt).storedEnergy =
        min (net.storedEnergy + (net.effectiveProduction - net.totalConsumption) * (dt / 3600))
          net.totalStorage) ∧
    (net.effectiveProduction - net.totalConsumption < 0 →
      (net.storedEnergy ≥ |net.effectiveProduction - net.totalConsumption| * (dt / 3600) →
        (blackoutStep net dt).isBlackedOut = false ∧
        (blackoutStep net dt).storedEnergy =
          net.storedEnergy - |net.effectiveProduction - net.totalConsumption| * (dt / 3600)) ∧
      (net.storedEnergy < |net.effectiveProduction - net.totalConsumption| * (dt / 3600) →
        (blackoutStep net dt).isBlackedOut = true ∧
        (blackoutStep net dt).storedEnergy = 0)) ∧
    ((blackoutStep c1net 60).isBlackedOut = true ∧
     (blackoutStep c1net 60).storedEnergy = 0) := by
  refine ⟨fun h => ?_, fun h => ⟨fun hs => ?_, fun hs => ?_⟩, ?_⟩
  · simp only [blackoutStep]
    rw [if_neg (not_lt.mpr h)]
    exact ⟨rfl, rfl⟩
  · simp only [blackoutStep]
    rw [if_pos h, if_pos hs]
    exact ⟨rfl, rfl⟩
  · simp only [blackoutStep]
    rw [if_pos h, if_neg (not_le.mpr hs)]
    exact ⟨rfl, rfl⟩
  · constructor <;> norm_num [blackoutStep, c1net]

/-- Witness for C1 at the claim's concrete input. -/
theorem blackout_storage_dynamics_witness :
    (blackoutStep c1net 60).isBlackedOut = true ∧
    (blackoutStep c1net 60).storedEnergy = 0 := by
  have h := blackout_storage_dynamics c1net 60
  have hneg : c1net.effectiveProduction - c1net.totalConsumption < 0 := by
    norm_num [c1net]
  have hlt : c1net.storedEnergy <
      |c1net.effectiveProduction - c1net.totalConsumption| * ((60 : ℚ) / 3600) := by
    norm_num [c1net]
  exact (h.2.1 hneg).2 hlt

/-- C7: the alien-extractor bonus folds in linearly, not multiplicatively.
After the tally and bonus phases of `PowerGridSystem.update`,
`totalProduction = Σ generators + 500 × alienCount` and
`effectiveProduction = totalProduction + 0.3 × baseProduction × alienCount`
with `baseProduction = totalProduction − 500 × alienCount` (equivalently,
`baseProduction` is exactly the non-alien generator sum).  The second half
is the concrete instance: generators totalling 1000 MW plus 2 alien
extractors (total production 2000 MW) yield 2600 MW effective. -/
theorem effective_production_linear_bonus (net : PowerNetwork) (gens cons : List ℚ)
    (alienCount : ℕ) (units : List StorageUnit) :
    ((effectiveStep (tallyNetwork net gens cons alienCount units)).totalProduction =
        gens.sum + (alienCount : ℚ) * 500 ∧
      (effectiveStep (tallyNetwork net gens cons alienCount units)).effectiveProduction =
        (gens.sum + (alienCount : ℚ) * 500) +
          (3 / 10) * ((gens.sum + (alienCount : ℚ) * 500) - (alienCount : ℚ) * 500) *
            (alienCount : ℚ) ∧
      (effectiveStep (tallyNetwork net gens cons alienCount units)).effectiveProduction =
        (gens.sum + (alienCount : ℚ) * 500) + (3 / 10) * gens.sum * (alienCount : ℚ)) ∧
    ((effectiveStep (tallyNetwork createNetwork [600, 400] [] 2 [])).totalProduction = 2000 ∧
      (effectiveStep (tallyNetwork createNetwork [600, 400] [] 2 [])).effectiveProduction
        = 2600) := by
  refine ⟨⟨?_, ?_, ?_⟩, ?_, ?_⟩
  · simp [tallyNetwork, effectiveStep, ALIEN_ENERGY_BASE_MW]
  · simp only [tallyNetwork, effectiveStep, ALIEN_ENERGY_BASE_MW, ALIEN_ENERGY_BONUS]
    ring
  · simp only [tallyNetwork, effectiveStep, ALIEN_ENERGY_BASE_MW, ALIEN_ENERGY_BONUS]
    ring
  · norm_num [tallyNetwork, effectiveStep, ALIEN_ENERGY_BASE_MW, ALIEN_ENERGY_BONUS,
      createNetwork]
  · norm_num [tallyNetwork, effectiveStep, ALIEN_ENERGY_BASE_MW, ALIEN_ENERGY_BONUS,
      createNetwork]

/-- C3 (bug evidence): `PowerGridSystem.update` resets `totalProduction`,
`totalConsumption`, `totalStorage` and `alienExtractorCount` at the start
of each tick but never resets `storedEnergy`, while the storage tally adds
`PowerStorage.stored` with `+=` and `updateStorageEntities` writes the same
energy back into the entities — so the network's stored energy is counted
again on the next tick.  Concretely: a network with a single 10 MWh
storage unit holding 8 MWh and a constant 1 MW deficit (dt = 60 s) ends
tick 1 within bounds (479/60 ≈ 7.98 MWh), but ends tick 2 with
`storedEnergy = 319/20 = 15.95 MWh > totalStorage = 10 MWh`, violating
the invariant `storedEnergy ∈ [0, totalStorage]`. -/
theorem stored_energy_exceeds_capacity_after_two_ticks :
    (updateNetwork createNetwork [] [1] 0 [⟨8, 10⟩] 60).1.storedEnergy = 479 / 60 ∧
    (updateNetwork createNetwork [] [1] 0 [⟨8, 10⟩] 60).1.storedEnergy ≤
      (updateNetwork createNetwork [] [1] 0 [⟨8, 10⟩] 60).1.totalStorage ∧
    (updateNetwork (updateNetwork createNetwork [] [1] 0 [⟨8, 10⟩] 60).1 [] [1] 0
        (updateNetwork createNetwork [] [1] 0 [⟨8, 10⟩] 60).2 60).1.totalStorage = 10 ∧
    (updateNetwork (updateNetwork createNetwork [] [1] 0 [⟨8, 10⟩] 60).1 [] [1] 0
        (updateNetwork createNetwork [] [1] 0 [⟨8, 10⟩] 60).2 60).1.storedEnergy = 319 / 20 ∧
    ¬ (updateNetwork (updateNetwork createNetwork [] [1] 0 [⟨8, 10⟩] 60).1 [] [1] 0
        (updateNetwork createNetwork [] [1] 0 [⟨8, 10⟩] 60).2 60).1.storedEnergy ≤
      (updateNetwork (updateNetwork createNetwork [] [1] 0 [⟨8, 10⟩] 60).1 [] [1] 0
        (updateNetwork createNetwork [] [1] 0 [⟨8, 10⟩] 60).2 60).1.totalStorage := by
  norm_num [updateNetwork, tallyNetwork, effectiveStep, blackoutStep, updateStorageEntities,
    ALIEN_ENERGY_BASE_MW, ALIEN_ENERGY_BONUS, createNetwork, abs]

/-! ### Coordinate mapping: C8 -/

theorem tmod_32_bounds (x : ℤ) : -32 < Int.tmod x 32 ∧ Int.tmod x 32 < 32 := by
  cases x with
  | ofNat m =>
    have h0 : 0 ≤ Int.tmod (Int.ofNat m) 32 :=
      Int.tmod_nonneg 32 (by exact Int.ofNat_nonneg m)
    have h1 : Int.tmod (Int.ofNat m) 32 < 32 := Int.tmod_lt_of_pos _ (by norm_num)
    omega
  | negSucc m =>
    have h : Int.tmod (Int.negSucc m) 32 = -(((m + 1) % 32 : ℕ) : ℤ) := rfl
    have h1 : (m + 1) % 32 < 32 := Nat.mod_lt _ (by norm_num)
    omega

/-- The normalized truncated remainder is the Euclidean remainder. -/
theorem jsLocal_eq_emod (x : ℤ) :
    (if Int.tmod x 32 < 0 then Int.tmod x 32 + 32 else Int.tmod x 32) = x % 32 := by
  have hb := tmod_32_bounds x
  have hx : Int.tmod x 32 + 32 * Int.tdiv x 32 = x := Int.tmod_add_tdiv x 32
  by_cases h : Int.tmod x 32 < 0
  · rw [if_pos h]
    have he : x % 32 = (Int.tmod x 32 + 32) % 32 := by
      conv_lhs => rw [← hx]
      rw [show Int.tmod x 32 + 32 * Int.tdiv x 32 =
        (Int.tmod x 32 + 32) + 32 * (Int.tdiv x 32 - 1) by ring]
      rw [Int.add_mul_emod_self_left]
    rw [he, Int.emod_eq_of_lt (by omega) (by omega)]
  · rw [if_neg h]
    have he : x % 32 = Int.tmod x 32 % 32 := by
      conv_lhs => rw [← hx]
      rw [Int.add_mul_emod_self_left]
    rw [he, Int.emod_eq_of_lt (by omega) (by omega)]

theorem positionToChunk_eq_ediv (pos : GridPosition) :
    (positionToChunk pos).cx = pos.x / 32 ∧ (positionToChunk pos).cz = pos.z / 32 :=
  ⟨Int.fdiv_eq_ediv pos.x (by norm_num [CHUNK_SIZE]),
   Int.fdiv_eq_ediv pos.z (by norm_num [CHUNK_SIZE])⟩

theorem positionToLocal_eq_emod (pos : GridPosition) :
    (positionToLocal pos).1 = pos.x % 32 ∧ (positionToLocal pos).2 = pos.z % 32 :=
  ⟨jsLocal_eq_emod pos.x, jsLocal_eq_emod pos.z⟩

theorem positionToLocal_bounds (pos : GridPosition) :
    0 ≤ (positionToLocal pos).1 ∧ (positionToLocal pos).1 < 32 ∧
    0 ≤ (positionToLocal pos).2 ∧ (positionToLocal pos).2 < 32 := by
  obtain ⟨h1, h2⟩ := positionToLocal_eq_emod pos
  refine ⟨?_, ?_, ?_, ?_⟩
  · rw [h1]; exact Int.emod_nonneg pos.x (by norm_num)
  · rw [h1]; exact Int.emod_lt_of_pos pos.x (by norm_num)
  · rw [h2]; exact Int.emod_nonneg pos.z (by norm_num)
  · rw [h2]; exact Int.emod_lt_of_pos pos.z (by norm_num)

theorem position_reconstruct (pos : GridPosition) :
    (positionToChunk pos).cx * 32 + (positionToLocal pos).1 = pos.x ∧
    (positionToChunk pos).cz * 32 + (positionToLocal pos).2 = pos.z := by
  obtain ⟨hcx, hcz⟩ := positionToChunk_eq_ediv pos
  obtain ⟨hlx, hlz⟩ := positionToLocal_eq_emod pos
  constructor
  · rw [hcx, hlx, mul_comm]; exact Int.ediv_add_emod pos.x 32
  · rw [hcz, hlz, mul_comm]; exact Int.ediv_add_emod pos.z 32

/-- C8: the chunk coordinate is the floor (toward negative infinity) of
`axis / 32`, the local coordinate is `axis mod 32` normalized into
`[0, 32)`, and `chunk * 32 + local` reconstructs the axis value.  (Here
`/` and `%` on `ℤ` are Euclidean division/remainder, which for the
positive divisor 32 coincide with flooring division and a remainder in
`[0, 32)` — i.e. the spec's reading.)  The last conjunct pins down the
negative-axis behaviour concretely: x = −5 lands in chunk −1 at local 27,
not in chunk 0 (which truncation toward zero would give). -/
theorem chunk_local_coordinate_mapping (pos : GridPosition) :
    ((positionToChunk pos).cx = pos.x / 32 ∧
     (positionToChunk pos).cz = pos.z / 32 ∧
     (positionToLocal pos).1 = pos.x % 32 ∧
     (positionToLocal pos).2 = pos.z % 32 ∧
     0 ≤ (positionToLocal pos).1 ∧ (positionToLocal pos).1 < 32 ∧
     0 ≤ (positionToLocal pos).2 ∧ (positionToLocal pos).2 < 32 ∧
     (positionToChunk pos).cx * 32 + (positionToLocal pos).1 = pos.x ∧
     (positionToChunk pos).cz * 32 + (positionToLocal pos).2 = pos.z) ∧
    (positionToChunk ⟨-5, 0, -33⟩ = ⟨-1, -2⟩ ∧
     positionToLocal ⟨-5, 0, -33⟩ = (27, 31)) := by
  obtain ⟨hcx, hcz⟩ := positionToChunk_eq_ediv pos
  obtain ⟨hlx, hlz⟩ := positionToLocal_eq_emod pos
  obtain ⟨hb1, hb2, hb3, hb4⟩ := positionToLocal_bounds pos
  obtain ⟨hr1, hr2⟩ := position_reconstruct pos
  exact ⟨⟨hcx, hcz, hlx, hlz, hb1, hb2, hb3, hb4, hr1, hr2⟩, by decide, by decide⟩

/-! ### Spatial grid: C2 -/

theorem floor_getD_set_same (f : List (Option GridCell)) (n : ℕ) (cell : Option GridCell)
    (h : n < f.length) : (f.set n cell).getD n none = cell := by
  rw [List.getD_eq_getElem?_getD, List.getElem?_set_self (by simpa using h)]
  rfl

theorem floor_getD_set_other (f : List (Option GridCell)) (n m : ℕ) (cell : Option GridCell)
    (h : n ≠ m) : (f.set n cell).getD m none = f.getD m none := by
  rw [List.getD_eq_getElem?_getD, List.getD_eq_getElem?_getD, List.getElem?_set_ne h]

theorem emptyFloor_length : emptyFloor.length = 32 * 32 :=
  List.length_replicate _ _

theorem emptyFloor_getD (m : ℕ) : emptyFloor.getD m none = none := by
  rw [emptyFloor, List.getD_eq_getElem?_getD]
  rcases lt_or_ge m (32 * 32) with h | h
  · rw [List.getElem?_replicate_of_lt h]
    rfl
  · rw [List.getElem?_eq_none (by rw [List.length_replicate]; exact h)]
    rfl

theorem alookup_cons_self {κ α : Type} [DecidableEq κ] (k : κ) (v : α) (l : List (κ × α)) :
    alookup ((k, v) :: l) k = some v := by
  simp [alookup]

theorem alookup_cons_ne {κ α : Type} [DecidableEq κ] (k k' : κ) (v : α) (l : List (κ × α))
    (h : ¬ k = k') : alookup ((k, v) :: l) k' = alookup l k' := by
  simp [alookup, h]

theorem Chunk.WF_emptyChunk (cx cz : ℤ) : Chunk.WF ⟨cx, cz, []⟩ :=
  fun e he => absurd he (List.not_mem_nil e)

theorem Chunk.WF_setCell (c : Chunk) (hwf : c.WF) (lx lz y : ℤ) (cell : Option GridCell) :
    (c.setCell lx lz y cell).WF := by
  simp only [Chunk.setCell]
  cases hl : alookup c.cells y with
  | some f =>
    intro e he
    simp only [List.mem_map] at he
    obtain ⟨e0, he0, heq⟩ := he
    by_cases h : e0.1 = y
    · rw [if_pos h] at heq
      subst heq
      have hflen : f.length = 32 * 32 := hwf (y, f) (alookup_mem hl)
      by_cases hi : 0 ≤ localIndex lx lz
      · simpa [hi, List.length_set] using hflen
      · simpa [hi] using hflen
    · rw [if_neg h] at heq
      subst heq
      exact hwf e0 he0
  | none =>
    intro e he
    rcases List.mem_cons.mp he with he | he
    · subst he
      by_cases hi : 0 ≤ localIndex lx lz
      · simpa [hi, List.length_set] using emptyFloor_length
      · simpa [hi] using emptyFloor_length
    · exact hwf e he

theorem localIndex_bounds (lx lz : ℤ) (h1 : 0 ≤ lx) (h2 : lx < 32) (h3 : 0 ≤ lz)
    (h4 : lz < 32) : 0 ≤ localIndex lx lz ∧ localIndex lx lz < 32 * 32 := by
  have h : localIndex lx lz = lz * 32 + lx := rfl
  omega

theorem Chunk.getCell_setCell_same (c : Chunk) (hwf : c.WF) (lx lz y : ℤ)
    (h1 : 0 ≤ lx) (h2 : lx < 32) (h3 : 0 ≤ lz) (h4 : lz < 32) (cell : Option GridCell) :
    (c.setCell lx lz y cell).getCell lx lz y = cell := by
  obtain ⟨hi0, hi1⟩ := localIndex_bounds lx lz h1 h2 h3 h4
  simp only [Chunk.setCell, Chunk.getCell]
  cases hl : alookup c.cells y with
  | some f =>
    have hflen : f.length = 32 * 32 := hwf (y, f) (alookup_mem hl)
    simp only [hl, alookup_map_set_self, Option.isSome_some, if_true, if_pos hi0]
    exact floor_getD_set_same f _ cell (by omega)
  | none =>
    simp only [hl, alookup, if_pos rfl, if_pos hi0]
    exact floor_getD_set_same emptyFloor _ cell (by rw [emptyFloor_length]; omega)

theorem Chunk.getCell_setCell_diff_floor (c : Chunk) (lx lz y lx' lz' y' : ℤ)
    (cell : Option GridCell) (hy : y' ≠ y) :
    (c.setCell lx lz y cell).getCell lx' lz' y' = c.getCell lx' lz' y' := by
  simp only [Chunk.setCell, Chunk.getCell]
  cases hl : alookup c.cells y with
  | some f =>
    rw [alookup_map_set_other _ _ _ _ hy]
  | none =>
    have hyy : ¬ y = y' := fun h => hy h.symm
    rw [alookup_cons_ne _ _ _ _ hyy]

theorem Chunk.getCell_setCell_diff_idx (c : Chunk) (lx lz y lx' lz' : ℤ)
    (cell : Option GridCell) (hne : localIndex lx' lz' ≠ localIndex lx lz) :
    (c.setCell lx lz y cell).getCell lx' lz' y = c.getCell lx' lz' y := by
  simp only [Chunk.setCell, Chunk.getCell]
  cases hl : alookup c.cells y with
  | some f =>
    simp only [hl, alookup_map_set_self, Option.isSome_some, if_true]
    by_cases h0 : 0 ≤ localIndex lx' lz'
    · rw [if_pos h0, if_pos h0]
      by_cases hw : 0 ≤ localIndex lx lz
      · rw [if_pos hw]
        exact floor_getD_set_other f _ _ cell (by omega)
      · rw [if_neg hw]
    · rw [if_neg h0, if_neg h0]
  | none =>
    rw [alookup_cons_self]
    simp only []
    by_cases h0 : 0 ≤ localIndex lx' lz'
    · rw [if_pos h0]
      by_cases hw : 0 ≤ localIndex lx lz
      · rw [if_pos hw, floor_getD_set_other emptyFloor _ _ cell (by omega)]
        exact emptyFloor_getD _
      · rw [if_neg hw]
        exact emptyFloor_getD _
    · rw [if_neg h0]

theorem position_addr_inj (p q : GridPosition)
    (hk1 : (positionToChunk q).cx = (positionToChunk p).cx)
    (hk2 : (positionToChunk q).cz = (positionToChunk p).cz)
    (hy : q.y = p.y)
    (hi : localIndex (positionToLocal q).1 (positionToLocal q).2 =
          localIndex (positionToLocal p).1 (positionToLocal p).2) : q = p := by
  obtain ⟨hbq1, hbq2, hbq3, hbq4⟩ := positionToLocal_bounds q
  obtain ⟨hbp1, hbp2, hbp3, hbp4⟩ := positionToLocal_bounds p
  obtain ⟨hrq1, hrq2⟩ := position_reconstruct q
  obtain ⟨hrp1, hrp2⟩ := position_reconstruct p
  have hi' : (positionToLocal q).2 * 32 + (positionToLocal q).1 =
             (positionToLocal p).2 * 32 + (positionToLocal p).1 := hi
  have hlx : (positionToLocal q).1 = (positionToLocal p).1 := by omega
  have hlz : (positionToLocal q).2 = (positionToLocal p).2 := by omega
  have hx : q.x = p.x := by rw [← hrq1, ← hrp1, hk1, hlx]
  have hz : q.z = p.z := by rw [← hrq2, ← hrp2, hk2, hlz]
  cases q with
  | mk qx qy qz =>
    cases p with
    | mk px py pz =>
      simp only [GridPosition.mk.injEq]
      exact ⟨hx, hy, hz⟩

theorem GridManager.WF_emptyGridManager : GridManager.WF emptyGrid :=
  fun e he => absurd he (List.not_mem_nil e)

theorem GridManager.WF_setCellAt (g : GridManager) (hwf : g.WF) (p : GridPosition)
    (cell : Option GridCell) : (g.setCellAt p cell).WF := by
  simp only [GridManager.setCellAt, GridManager.modifyChunk]
  cases hl : alookup g.chunks ((positionToChunk p).cx, (positionToChunk p).cz) with
  | some c =>
    intro e he
    simp only [List.mem_map] at he
    obtain ⟨e0, he0, heq⟩ := he
    by_cases h : e0.1 = ((positionToChunk p).cx, (positionToChunk p).cz)
    · rw [if_pos h] at heq
      subst heq
      exact Chunk.WF_setCell c (hwf _ (alookup_mem hl)) _ _ _ cell
    · rw [if_neg h] at heq
      subst heq
      exact hwf e0 he0
  | none =>
    intro e he
    rcases List.mem_cons.mp he with he | he
    · subst he
      exact Chunk.WF_setCell _ (Chunk.WF_emptyChunk _ _) _ _ _ cell
    · exact hwf e he

theorem getCellAt_setCellAt_same (g : GridManager) (hwf : g.WF) (p : GridPosition)
    (cell : Option GridCell) : (g.setCellAt p cell).getCellAt p = cell := by
  obtain ⟨hb1, hb2, hb3, hb4⟩ := positionToLocal_bounds p
  simp only [GridManager.setCellAt, GridManager.modifyChunk, GridManager.getCellAt]
  cases hl : alookup g.chunks ((positionToChunk p).cx, (positionToChunk p).cz) with
  | some c =>
    simp only [hl, alookup_map_set_self, Option.isSome_some, if_true]
    exact Chunk.getCell_setCell_same c (hwf _ (alookup_mem hl)) _ _ _ hb1 hb2 hb3 hb4 cell
  | none =>
    simp only [hl, alookup, if_pos rfl]
    exact Chunk.getCell_setCell_same _ (Chunk.WF_emptyChunk _ _) _ _ _ hb1 hb2 hb3 hb4 cell

theorem getCellAt_setCellAt_other (g : GridManager) (p q : GridPosition) (hpq : q ≠ p)
    (cell : Option GridCell) : (g.setCellAt p cell).getCellAt q = g.getCellAt q := by
  simp only [GridManager.setCellAt, GridManager.modifyChunk, GridManager.getCellAt]
  by_cases hk : ((positionToChunk q).cx, (positionToChunk q).cz) =
      ((positionToChunk p).cx, (positionToChunk p).cz)
  · -- same chunk: distinguish the floor or the flat index
    have hignore : ∀ ch : Chunk,
        (ch.setCell (positionToLocal p).1 (positionToLocal p).2 p.y cell).getCell
          (positionToLocal q).1 (positionToLocal q).2 q.y =
        ch.getCell (positionToLocal q).1 (positionToLocal q).2 q.y := by
      intro ch
      by_cases hy : q.y = p.y
      · have hne : localIndex (positionToLocal q).1 (positionToLocal q).2 ≠
            localIndex (positionToLocal p).1 (positionToLocal p).2 := by
          intro hi
          exact hpq (position_addr_inj p q (congrArg Prod.fst hk) (congrArg Prod.snd hk) hy hi)
        rw [hy]
        exact Chunk.getCell_setCell_diff_idx ch _ _ _ _ _ cell hne
      · exact Chunk.getCell_setCell_diff_floor ch _ _ _ _ _ _ cell hy
    cases hl : alookup g.chunks ((positionToChunk p).cx, (positionToChunk p).cz) with
    | some c =>
      rw [hk, alookup_map_set_self, hl]
      simp only [Option.isSome_some, if_true]
      exact hignore c
    | none =>
      rw [hk, alookup_cons_self, hl]
      simp only []
      rw [hignore ⟨(positionToChunk p).cx, (positionToChunk p).cz, []⟩]
      simp [Chunk.getCell, alookup]
  · cases hl : alookup g.chunks ((positionToChunk p).cx, (positionToChunk p).cz) with
    | some c =>
      rw [alookup_map_set_other _ _ _ _ hk]
    | none =>
      have hk' : ¬ ((positionToChunk p).cx, (positionToChunk p).cz) =
          ((positionToChunk q).cx, (positionToChunk q).cz) := fun h => hk h.symm
      rw [alookup_cons_ne _ _ _ _ hk']

theorem WF_foldl_setCellAt (L : List GridPosition) (cell : Option GridCell) :
    ∀ g : GridManager, g.WF →
      (L.foldl (fun acc r => acc.setCellAt r cell) g).WF := by
  induction L with
  | nil => intro g hwf; exact hwf
  | cons p rest ih =>
    intro g hwf
    exact ih _ (GridManager.WF_setCellAt g hwf p cell)

theorem getCellAt_foldl_not_mem (L : List GridPosition) (cell : Option GridCell) :
    ∀ (g : GridManager) (q : GridPosition), q ∉ L →
      (L.foldl (fun acc r => acc.setCellAt r cell) g).getCellAt q = g.getCellAt q := by
  induction L with
  | nil => intro g q _; rfl
  | cons p rest ih =>
    intro g q hq
    simp only [List.foldl_cons]
    rw [ih _ _ (fun h => hq (List.mem_cons_of_mem _ h))]
    exact getCellAt_setCellAt_other g p q (fun h => hq (h ▸ List.mem_cons_self _ _)) cell

theorem getCellAt_foldl_mem (L : List GridPosition) (cell : Option GridCell) :
    ∀ g : GridManager, g.WF → ∀ q ∈ L,
      (L.foldl (fun acc r => acc.setCellAt r cell) g).getCellAt q = cell := by
  induction L with
  | nil => intro g _ q hq; simp at hq
  | cons p rest ih =>
    intro g hwf q hq
    simp only [List.foldl_cons]
    by_cases hmem : q ∈ rest
    · exact ih _ (GridManager.WF_setCellAt g hwf p cell) q hmem
    · have hqp : q = p := by
        rcases List.mem_cons.mp hq with h | h
        · exact h
        · exact absurd h hmem
      subst hqp
      rw [getCellAt_foldl_not_mem rest cell _ q hmem]
      exact getCellAt_setCellAt_same g hwf q cell

theorem isOccupied_eq_getCellAt (g : GridManager) (p : GridPosition) :
    g.isOccupied p = (g.getCellAt p).isSome := by
  simp only [GridManager.isOccupied, GridManager.getCellAt]
  cases alookup g.chunks ((positionToChunk p).cx, (positionToChunk p).cz) <;> rfl

theorem canPlace_iff (g : GridManager) (pos : GridPosition) (sizeX sizeZ : ℕ) :
    g.canPlace pos sizeX sizeZ = true ↔
      ∀ dx < sizeX, ∀ dz < sizeZ,
        g.isOccupied ⟨pos.x + (dx : ℤ), pos.y, pos.z + (dz : ℤ)⟩ = false := by
  simp only [GridManager.canPlace, List.all_eq_true, List.mem_range, Bool.not_eq_true']

theorem mem_footprint (pos : GridPosition) (sizeX sizeZ : ℕ) (q : GridPosition) :
    q ∈ footprint pos sizeX sizeZ ↔
      ∃ dx < sizeX, ∃ dz < sizeZ,
        q = ⟨pos.x + (dx : ℤ), pos.y, pos.z + (dz : ℤ)⟩ := by
  unfold footprint
  rw [List.mem_flatMap]
  constructor
  · rintro ⟨dx, hdx, hq⟩
    rw [List.mem_map] at hq
    obtain ⟨dz, hdz, rfl⟩ := hq
    exact ⟨dx, List.mem_range.mp hdx, dz, List.mem_range.mp hdz, rfl⟩
  · rintro ⟨dx, hdx, dz, hdz, rfl⟩
    refine ⟨dx, List.mem_range.mpr hdx, ?_⟩
    rw [List.mem_map]
    exact ⟨dz, List.mem_range.mpr hdz, rfl⟩

/-- C2 counterexample: with a zero-area footprint (sizeX = sizeZ = 0) on an
empty grid, `placeEntity` succeeds (the occupancy loop is empty) yet
`canPlace` on the same footprint still returns true afterwards — so the
claim's "canPlace on the same footprint returns false after a successful
place" fails as universally quantified over footprint sizes. -/
theorem place_entity_zero_size_counterexample :
    (emptyGrid.placeEntity ⟨0, 0, 0⟩ 0 0 1 "hub" 0).1 = true ∧
    (emptyGrid.placeEntity ⟨0, 0, 0⟩ 0 0 1 "hub" 0).2.canPlace ⟨0, 0, 0⟩ 0 0 = true := by
  constructor <;> rfl

/-- C2 (amended): for footprints of positive size (sizeX ≥ 1 and
sizeZ ≥ 1; the only buildable footprints), on a well-formed grid: if any
covered cell on that floor is already occupied, `placeEntity` returns
false and leaves the grid untouched (no partial write); and after a
successful `placeEntity`, every covered cell reports the placed entity via
`getCellAt` and `canPlace` on the same footprint returns false. -/
theorem place_entity_spec (g : GridManager) (hwf : g.WF) (pos : GridPosition)
    (sizeX sizeZ : ℕ) (hX : 1 ≤ sizeX) (hZ : 1 ≤ sizeZ)
    (eid : ℕ) (btype : String) (rot : ℕ) :
    ((∃ dx < sizeX, ∃ dz < sizeZ,
        g.isOccupied ⟨pos.x + (dx : ℤ), pos.y, pos.z + (dz : ℤ)⟩ = true) →
      g.placeEntity pos sizeX sizeZ eid btype rot = (false, g)) ∧
    ((g.placeEntity pos sizeX sizeZ eid btype rot).1 = true →
      (∀ dx < sizeX, ∀ dz < sizeZ,
        (g.placeEntity pos sizeX sizeZ eid btype rot).2.getCellAt
          ⟨pos.x + (dx : ℤ), pos.y, pos.z + (dz : ℤ)⟩ = some ⟨eid, btype, rot⟩) ∧
      (g.placeEntity pos sizeX sizeZ eid btype rot).2.canPlace pos sizeX sizeZ
        = false) := by
  constructor
  · rintro ⟨dx, hdx, dz, hdz, hocc⟩
    have hcp : g.canPlace pos sizeX sizeZ = false := by
      cases hc : g.canPlace pos sizeX sizeZ
      · rfl
      · have := (canPlace_iff g pos sizeX sizeZ).mp hc dx hdx dz hdz
        rw [this] at hocc
        exact absurd hocc (by simp)
    simp [GridManager.placeEntity, hcp]
  · intro hsucc
    have hcp : g.canPlace pos sizeX sizeZ = true := by
      cases hc : g.canPlace pos sizeX sizeZ
      · rw [GridManager.placeEntity] at hsucc
        rw [hc] at hsucc
        simp at hsucc
      · rfl
    have hres : (g.placeEntity pos sizeX sizeZ eid btype rot).2 =
        (footprint pos sizeX sizeZ).foldl
          (fun acc cp => acc.setCellAt cp (some ⟨eid, btype, rot⟩)) g := by
      simp [GridManager.placeEntity, hcp]
    have hcells : ∀ dx < sizeX, ∀ dz < sizeZ,
        (g.placeEntity pos sizeX sizeZ eid btype rot).2.getCellAt
          ⟨pos.x + (dx : ℤ), pos.y, pos.z + (dz : ℤ)⟩ = some ⟨eid, btype, rot⟩ := by
      intro dx hdx dz hdz
      rw [hres]
      exact getCellAt_foldl_mem _ _ g hwf _
        ((mem_footprint pos sizeX sizeZ _).mpr ⟨dx, hdx, dz, hdz, rfl⟩)
    refine ⟨hcells, ?_⟩
    cases hc : (g.placeEntity pos sizeX sizeZ eid btype rot).2.canPlace pos sizeX sizeZ
    · rfl
    · exfalso
      have hfree := (canPlace_iff _ pos sizeX sizeZ).mp hc 0 hX 0 hZ
      have hcell := hcells 0 hX 0 hZ
      rw [isOccupied_eq_getCellAt, hcell] at hfree
      exact absurd hfree (by simp)

/-- Witness for C2 (amended) at a concrete input: a 2×1 building placed on
the empty grid covers both cells and blocks re-placement. -/
theorem place_entity_spec_witness :
    (emptyGrid.placeEntity ⟨0, 0, 0⟩ 2 1 5 "smelter" 1).2.getCellAt
      ⟨1, 0, 0⟩ = some ⟨5, "smelter", 1⟩ ∧
    (emptyGrid.placeEntity ⟨0, 0, 0⟩ 2 1 5 "smelter" 1).2.canPlace ⟨0, 0, 0⟩ 2 1
      = false := by
  have h := place_entity_spec emptyGrid GridManager.WF_emptyGridManager ⟨0, 0, 0⟩ 2 1
    (by norm_num) (by norm_num) 5 "smelter" 1
  have hsucc : (emptyGrid.placeEntity ⟨0, 0, 0⟩ 2 1 5 "smelter" 1).1 = true := by rfl
  obtain ⟨hcells, hcp⟩ := h.2 hsucc
  refine ⟨?_, hcp⟩
  have := hcells 1 (by norm_num) 0 (by norm_num)
  simpa using this

/-! ### Production: C4, C10 -/

theorem consume_foldl (ings : List RecipeIngredient) (slots : String → ℚ) (item : String) :
    (ings.foldl (fun s ing => Function.update s ing.itemId (s ing.itemId - ing.amount))
      slots) item =
      slots item -
        ((ings.filter (fun ing => ing.itemId == item)).map RecipeIngredient.amount).sum := by
  induction ings generalizing slots with
  | nil => simp
  | cons ing rest ih =>
    simp only [List.foldl_cons]
    rw [ih]
    by_cases h : ing.itemId = item
    · subst h
      simp [List.filter_cons, Function.update_same]
      ring
    · have hne : item ≠ ing.itemId := Ne.symm h
      simp [List.filter_cons, h, Function.update_noteq hne]

theorem advanceProducer_inputSlots (recipe : RuntimeRecipe) (s : ℚ) (p : ProducerState)
    (c : PowerConsumerState) (buffer : MachineBuffer) (dt : ℚ) :
    (advanceProducer recipe s p c buffer dt).buffer.inputSlots = buffer.inputSlots := by
  simp only [advanceProducer]
  split
  · simp [produceOutputs]
  · rfl

theorem advanceProducer_recipeId (recipe : RuntimeRecipe) (s : ℚ) (p : ProducerState)
    (c : PowerConsumerState) (buffer : MachineBuffer) (dt : ℚ) :
    (advanceProducer recipe s p c buffer dt).producer.recipeId = p.recipeId := by
  simp only [advanceProducer]
  split <;> rfl

theorem processProducer_recipeId (recipes : ℕ → Option RuntimeRecipe) (powCurve : ℚ → ℚ)
    (p : ProducerState) (c : PowerConsumerState) (buffer : MachineBuffer) (dt : ℚ) :
    (processProducer recipes powCurve p c buffer dt).producer.recipeId = p.recipeId := by
  simp only [processProducer]
  cases hr : recipes p.recipeId with
  | none => rfl
  | some r =>
    simp only []
    by_cases hco : canOutput buffer r = true
    · rw [if_pos hco]
      by_cases hpz : p.progress = 0
      · rw [if_pos hpz]
        by_cases hi : hasIngredients buffer r = true
        · rw [if_pos hi]
          exact advanceProducer_recipeId r _ _ _ _ dt
        · rw [if_neg hi]
      · rw [if_neg hpz]
        exact advanceProducer_recipeId r _ _ _ _ dt
    · rw [if_neg hco]

theorem processProducer_insufficient (recipes : ℕ → Option RuntimeRecipe)
    (powCurve : ℚ → ℚ) (p : ProducerState) (c : PowerConsumerState)
    (buffer : MachineBuffer) (dt : ℚ) (recipe : RuntimeRecipe)
    (hrec : recipes p.recipeId = some recipe) (hp : p.progress = 0)
    (hing : hasIngredients buffer recipe = false) :
    (processProducer recipes powCurve p c buffer dt).producer.isActive = false ∧
    (processProducer recipes powCurve p c buffer dt).producer.progress = 0 ∧
    (processProducer recipes powCurve p c buffer dt).producer.recipeId = p.recipeId ∧
    (processProducer recipes powCurve p c buffer dt).buffer = buffer := by
  simp only [processProducer, hrec]
  by_cases hco : canOutput buffer recipe = true
  · rw [if_pos hco, if_pos hp, if_neg (by simp [hing])]
    exact ⟨rfl, hp, rfl, rfl⟩
  · rw [if_neg hco]
    exact ⟨rfl, hp, rfl, rfl⟩

/-- C4: ingredient consumption in `processProducer` happens only at the
start of a cycle (`progress = 0`) and is all-or-nothing.  With the recipe
resolved: (1) if any ingredient is short at `progress = 0`, the machine
goes inactive, no input-slot count changes, and progress stays 0;
(2) if all ingredients are available at `progress = 0` (and the output
buffer has room, so the machine actually runs), every required quantity is
consumed in that one step — each input slot drops by exactly the summed
requirement for its item; (3) away from `progress = 0` the input buffer is
never touched; and (4) iterating the tick on a machine that is short never
advances progress past 0 and never decrements any input slot. -/
theorem producer_all_or_nothing (recipes : ℕ → Option RuntimeRecipe) (powCurve : ℚ → ℚ)
    (p : ProducerState) (c : PowerConsumerState) (buffer : MachineBuffer) (dt : ℚ)
    (recipe : RuntimeRecipe) (hrec : recipes p.recipeId = some recipe) :
    (p.progress = 0 → hasIngredients buffer recipe = false →
      (processProducer recipes powCurve p c buffer dt).producer.isActive = false ∧
      (processProducer recipes powCurve p c buffer dt).buffer.inputSlots =
        buffer.inputSlots ∧
      (processProducer recipes powCurve p c buffer dt).producer.progress = 0) ∧
    (p.progress = 0 → hasIngredients buffer recipe = true →
      canOutput buffer recipe = true →
      ∀ item : String,
        (processProducer recipes powCurve p c buffer dt).buffer.inputSlots item =
          buffer.inputSlots item -
            ((recipe.ingredients.filter (fun ing => ing.itemId == item)).map
              RecipeIngredient.amount).sum) ∧
    (p.progress ≠ 0 →
      (processProducer recipes powCurve p c buffer dt).buffer.inputSlots =
        buffer.inputSlots) ∧
    (p.progress = 0 → hasIngredients buffer recipe = false →
      ∀ n : ℕ,
        ((fun s : ProducerTickResult =>
            processProducer recipes powCurve s.producer s.consumer s.buffer dt)^[n]
          ⟨p, c, buffer⟩).producer.progress = 0 ∧
        ((fun s : ProducerTickResult =>
            processProducer recipes powCurve s.producer s.consumer s.buffer dt)^[n]
          ⟨p, c, buffer⟩).buffer.inputSlots = buffer.inputSlots) := by
  refine ⟨?_, ?_, ?_, ?_⟩
  · intro hp hing
    obtain ⟨h1, h2, _, h4⟩ :=
      processProducer_insufficient recipes powCurve p c buffer dt recipe hrec hp hing
    exact ⟨h1, by rw [h4], h2⟩
  · intro hp hing hout item
    have hres : (processProducer recipes powCurve p c buffer dt).buffer.inputSlots =
        (consumeIngredients buffer recipe).inputSlots := by
      simp only [processProducer, hrec]
      rw [if_pos hout, if_pos hp, if_pos hing, advanceProducer_inputSlots]
    rw [hres]
    simp only [consumeIngredients]
    exact consume_foldl recipe.ingredients buffer.inputSlots item
  · intro hp
    simp only [processProducer, hrec]
    by_cases hco : canOutput buffer recipe = true
    · rw [if_pos hco, if_neg hp, advanceProducer_inputSlots]
    · rw [if_neg hco]
  · intro hp hing n
    have hrid : ∀ m : ℕ,
        ((fun s : ProducerTickResult =>
            processProducer recipes powCurve s.producer s.consumer s.buffer dt)^[m]
          ⟨p, c, buffer⟩).producer.recipeId = p.recipeId := by
      intro m
      induction m with
      | zero => rfl
      | succ j ihj =>
        rw [Function.iterate_succ_apply']
        rw [processProducer_recipeId]
        exact ihj
    induction n with
    | zero => exact ⟨hp, rfl⟩
    | succ k ih =>
      rw [Function.iterate_succ_apply']
      obtain ⟨ihp, ihb⟩ := ih
      have hing' : hasIngredients
          ((fun s : ProducerTickResult =>
              processProducer recipes powCurve s.producer s.consumer s.buffer dt)^[k]
            ⟨p, c, buffer⟩).buffer recipe = false := by
        unfold hasIngredients at hing ⊢
        rw [ihb]
        exact hing
      have hrec' : recipes
          ((fun s : ProducerTickResult =>
              processProducer recipes powCurve s.producer s.consumer s.buffer dt)^[k]
            ⟨p, c, buffer⟩).producer.recipeId = some recipe := by
        rw [hrid k]
        exact hrec
      obtain ⟨h1, h2, h3, h4⟩ := processProducer_insufficient recipes powCurve _ _ _ dt
        recipe hrec' ihp hing'
      constructor
      · exact h2
      · rw [h4]
        exact ihb

/-- Witness for C4: a producer whose recipe needs 5 ore while its input
buffer holds 3 goes inactive, keeps the 3 ore, stays at progress 0, and
after five more ticks is still at progress 0 with the 3 ore intact. -/
theorem producer_all_or_nothing_witness :
    (processProducer demoRecipes (fun x => x) idleProducer demoConsumer threeOreBuffer
      1).producer.isActive = false ∧
    (processProducer demoRecipes (fun x => x) idleProducer demoConsumer threeOreBuffer
      1).buffer.inputSlots "ore" = 3 ∧
    (processProducer demoRecipes (fun x => x) idleProducer demoConsumer threeOreBuffer
      1).producer.progress = 0 ∧
    ((fun s : ProducerTickResult =>
        processProducer demoRecipes (fun x => x) s.producer s.consumer s.buffer 1)^[5]
      ⟨idleProducer, demoConsumer, threeOreBuffer⟩).producer.progress = 0 := by
  have h := producer_all_or_nothing demoRecipes (fun x => x) idleProducer demoConsumer
    threeOreBuffer 1 oreRecipe (by rfl)
  have hp : idleProducer.progress = 0 := rfl
  have hing : hasIngredients threeOreBuffer oreRecipe = false := by decide
  obtain ⟨ha, hb, hc⟩ := h.1 hp hing
  refine ⟨ha, ?_, hc, (h.2.2.2 hp hing 5).1⟩
  rw [hb]
  decide

/-- C10: `isEntityBlackedOut` returns false for a network id that is not in
the networks map, so a power-requiring producer whose `PowerConsumer`
references an unknown network is never stopped by the blackout gate in
`ProductionSystem.update` — it proceeds through `processProducer` exactly
as if powered. -/
theorem unknown_network_not_blacked_out (networks : List (ℕ × PowerNetwork))
    (recipes : ℕ → Option RuntimeRecipe) (powCurve : ℚ → ℚ) (p : ProducerState)
    (c : PowerConsumerState) (buffer : MachineBuffer) (dt : ℚ)
    (hunknown : alookup networks c.networkId = none) :
    isEntityBlackedOut networks c.networkId = false ∧
    updateProducerEntity networks recipes powCurve p c buffer dt =
      processProducer recipes powCurve p c buffer dt := by
  have hb : isEntityBlackedOut networks c.networkId = false := by
    simp [isEntityBlackedOut, hunknown]
  refine ⟨hb, ?_⟩
  simp [updateProducerEntity, hb]

/-- Witness for C10: a consumer on the never-created network 7, with only
network 3 known (and blacked out), runs its production cycle anyway. -/
theorem unknown_network_not_blacked_out_witness :
    isEntityBlackedOut [(3, { c1net with isBlackedOut := true })] demoConsumer.networkId
      = false ∧
    updateProducerEntity [(3, { c1net with isBlackedOut := true })] demoRecipes
        (fun x => x) idleProducer demoConsumer threeOreBuffer 1 =
      processProducer demoRecipes (fun x => x) idleProducer demoConsumer threeOreBuffer
        1 :=
  unknown_network_not_blacked_out [(3, { c1net with isBlackedOut := true })] demoRecipes
    (fun x => x) idleProducer demoConsumer threeOreBuffer 1 (by rfl)

/-! ### Command history: C5 -/

/-- C5: the `CommandHistory` contract.  (1) a failed `execute` leaves both
stacks and the world unchanged and returns false; (2) a successful
`execute` updates the world, clears the redo stack and pushes the command
on top of the undo stack (the push is plain whenever the history bound is
not yet hit); (3) `undo` on an empty undo stack is a no-op returning
false; (4) `redo` pops the most recent redone command and re-applies it,
and when re-application fails the command is dropped — pushed to neither
stack; (5) consequently, executing A then B, then `undo()`, then `redo()`
restores the exact post-B world (given B's revert/apply round-trip), and
every `undo()` beyond the number of executed commands is a no-op. -/
theorem command_history_spec :
    (∀ (σ : Type) (h : CommandHistory σ) (c : Cmd σ),
      c.apply h.world = none → h.execute c = (false, h)) ∧
    (∀ (σ : Type) (h : CommandHistory σ) (c : Cmd σ) (w : σ),
      c.apply h.world = some w →
        (h.execute c).1 = true ∧
        (h.execute c).2.world = w ∧
        (h.execute c).2.redoStack = [] ∧
        (h.execute c).2.undoStack.head? = some c ∧
        (h.undoStack.length < maxHistory →
          (h.execute c).2.undoStack = c :: h.undoStack)) ∧
    (∀ (σ : Type) (h : CommandHistory σ),
      h.undoStack = [] → h.undo = (false, h)) ∧
    (∀ (σ : Type) (h : CommandHistory σ) (c : Cmd σ) (rest : List (Cmd σ)) (w : σ),
      h.redoStack = c :: rest →
        (c.apply h.world = some w →
          h.redo =
            (true, { undoStack := c :: h.undoStack, redoStack := rest, world := w })) ∧
        (c.apply h.world = none →
          h.redo = (false, { h with redoStack := rest }))) ∧
    (∀ (σ : Type) (w0 wA wB : σ) (A B : Cmd σ),
      A.apply w0 = some wA → B.apply wA = some wB →
      B.apply (B.revert wB) = some wB →
        (((mkHistory w0).execute A).2.execute B).2.world = wB ∧
        (((((mkHistory w0).execute A).2.execute B).2.undo).2.redo).2.world = wB ∧
        (((((mkHistory w0).execute A).2.execute B).2.undo).2.redo).1 = true ∧
        (((((mkHistory w0).execute A).2.execute B).2.undo).2.undo).2.undo =
          (false, (((((mkHistory w0).execute A).2.execute B).2.undo).2.undo).2) ∧
        ((((((mkHistory w0).execute A).2.execute B).2.undo).2.undo).2.undo).2.undo =
          (false, (((((mkHistory w0).execute A).2.execute B).2.undo).2.undo).2)) := by
  refine ⟨?_, ?_, ?_, ?_, ?_⟩
  · intro σ h c happly
    simp only [CommandHistory.execute, happly]
  · intro σ h c w happly
    have hx : h.execute c = (true,
        { undoStack := if maxHistory < (c :: h.undoStack).length
            then (c :: h.undoStack).dropLast else c :: h.undoStack
          redoStack := [], world := w }) := by
      simp only [CommandHistory.execute, happly]
    rw [hx]
    refine ⟨rfl, rfl, rfl, ?_, ?_⟩
    · by_cases htrim : maxHistory < (c :: h.undoStack).length
      · rw [if_pos htrim]
        cases hu : h.undoStack with
        | nil =>
          rw [hu] at htrim
          simp [maxHistory] at htrim
        | cons x xs => rfl
      · rw [if_neg htrim]
        rfl
    · intro hlen
      rw [if_neg (by simp only [List.length_cons]; omega)]
  · intro σ h hempty
    simp only [CommandHistory.undo, hempty]
  · intro σ h c rest w hred
    constructor
    · intro happly
      simp only [CommandHistory.redo, hred]
      rw [happly]
    · intro happly
      simp only [CommandHistory.redo, hred]
      rw [happly]
  · intro σ w0 wA wB A B hA hB hRev
    have e1 : (mkHistory w0).execute A = (true, ⟨[A], [], wA⟩) := by
      simp only [CommandHistory.execute, mkHistory]
      rw [hA]
      simp [maxHistory]
    have e2 : (⟨[A], [], wA⟩ : CommandHistory σ).execute B =
        (true, ⟨[B, A], [], wB⟩) := by
      simp only [CommandHistory.execute]
      rw [hB]
      simp [maxHistory]
    have e3 : (⟨[B, A], [], wB⟩ : CommandHistory σ).undo =
        (true, ⟨[A], [B], B.revert wB⟩) := rfl
    have e4 : (⟨[A], [B], B.revert wB⟩ : CommandHistory σ).redo =
        (true, ⟨[B, A], [], wB⟩) := by
      simp only [CommandHistory.redo]
      rw [hRev]
    have e5 : (⟨[A], [B], B.revert wB⟩ : CommandHistory σ).undo =
        (true, ⟨[], [A, B], A.revert (B.revert wB)⟩) := rfl
    have e6 : (⟨[], [A, B], A.revert (B.revert wB)⟩ : CommandHistory σ).undo =
        (false, ⟨[], [A, B], A.revert (B.revert wB)⟩) := rfl
    refine ⟨?_, ?_, ?_, ?_, ?_⟩ <;>
      simp only [e1, e2, e3, e4, e5, e6]

/-- Witness for C5: incrementing then doubling 0, undoing, and redoing ends
at the post-doubling world 2, and a third and fourth undo after the two
possible ones are no-ops. -/
theorem command_history_spec_witness :
    (((mkHistory (0 : ℕ)).execute incCmd).2.execute doubleCmd).2.world = 2 ∧
    (((((mkHistory (0 : ℕ)).execute incCmd).2.execute doubleCmd).2.undo).2.redo).2.world
      = 2 ∧
    (((((mkHistory (0 : ℕ)).execute incCmd).2.execute doubleCmd).2.undo).2.undo).2.undo
      = (false,
        (((((mkHistory (0 : ℕ)).execute incCmd).2.execute doubleCmd).2.undo).2.undo).2) := by
  have h := command_history_spec.2.2.2.2 ℕ 0 1 2 incCmd doubleCmd rfl rfl rfl
  exact ⟨h.1, h.2.1, h.2.2.2.1⟩

/-! ### Persistence: C6 -/

theorem getD_set_self {α : Type} (l : List (Option α)) (n : ℕ) (a : Option α)
    (h : n < l.length) : (l.set n a).getD n none = a := by
  rw [List.getD_eq_getElem?_getD, List.getElem?_set_self (by simpa using h)]
  rfl

theorem loadWalk_eq_none_iff (store : SaveStore) (L : List ℕ) :
    loadWalk store L = none ↔
      ∀ slot ∈ L, ∀ d : SaveData,
        store.slots.getD slot none = some d → validSave d = false := by
  induction L with
  | nil => simp [loadWalk]
  | cons slot rest ih =>
    rw [loadWalk]
    cases hget : store.slots.getD slot none with
    | none =>
      simp only []
      rw [ih]
      constructor
      · intro h s hs d hd
        rcases List.mem_cons.mp hs with rfl | hs
        · rw [hget] at hd
          cases hd
        · exact h s hs d hd
      · intro h s hs d hd
        exact h s (List.mem_cons_of_mem _ hs) d hd
    | some d0 =>
      simp only []
      by_cases hv : validSave d0 = true
      · rw [if_pos hv]
        constructor
        · intro h
          cases h
        · intro h
          have := h slot (List.mem_cons_self _ _) d0 hget
          rw [hv] at this
          cases this
      · rw [if_neg hv]
        rw [ih]
        constructor
        · intro h s hs d hd
          rcases List.mem_cons.mp hs with rfl | hs
          · rw [hget] at hd
            injection hd with hd
            subst hd
            exact Bool.not_eq_true _ ▸ (Bool.eq_false_iff.mpr (fun hc => hv hc))
          · exact h s hs d hd
        · intro h s hs d hd
          exact h s (List.mem_cons_of_mem _ hs) d hd

theorem loadWalk_eq_some (store : SaveStore) (L : List ℕ) (d : SaveData) (ptr : ℕ)
    (h : loadWalk store L = some (d, ptr)) :
    validSave d = true ∧
    ∃ pre slot suf, L = pre ++ slot :: suf ∧
      store.slots.getD slot none = some d ∧
      ptr = (slot + 1) % MAX_SAVE_SLOTS ∧
      ∀ s ∈ pre, ∀ d' : SaveData,
        store.slots.getD s none = some d' → validSave d' = false := by
  induction L with
  | nil => simp [loadWalk] at h
  | cons slot rest ih =>
    rw [loadWalk] at h
    cases hget : store.slots.getD slot none with
    | none =>
      rw [hget] at h
      simp only [] at h
      obtain ⟨hv, pre, s0, suf, hL, h1, h2, h3⟩ := ih h
      refine ⟨hv, slot :: pre, s0, suf, by rw [hL]; rfl, h1, h2, ?_⟩
      intro s hs d' hd'
      rcases List.mem_cons.mp hs with rfl | hs
      · rw [hget] at hd'
        cases hd'
      · exact h3 s hs d' hd'
    | some d0 =>
      rw [hget] at h
      simp only [] at h
      by_cases hv : validSave d0 = true
      · rw [if_pos hv] at h
        injection h with h
        have hd : d = d0 := (congrArg Prod.fst h).symm
        have hp : ptr = (slot + 1) % MAX_SAVE_SLOTS := (congrArg Prod.snd h).symm
        subst hd
        subst hp
        exact ⟨hv, [], slot, rest, rfl, hget, rfl, fun s hs => absurd hs (List.not_mem_nil s)⟩
      · rw [if_neg hv] at h
        obtain ⟨hvd, pre, s0, suf, hL, h1, h2, h3⟩ := ih h
        refine ⟨hvd, slot :: pre, s0, suf, by rw [hL]; rfl, h1, h2, ?_⟩
        intro s hs d' hd'
        rcases List.mem_cons.mp hs with rfl | hs
        · rw [hget] at hd'
          injection hd' with hd'
          subst hd'
          exact Bool.eq_false_iff.mpr (fun hc => hv hc)
        · exact h3 s hs d' hd'

theorem saveStep_valid (store : SaveStore) (cur : ℕ) (d0 : SaveData) (now : ℤ)
    (h : cur < store.slots.length) :
    ∃ d : SaveData, (saveStep store cur d0 now).1.slots.getD cur none = some d ∧
      validSave d = true ∧ d.version = SAVE_VERSION ∧ d.timestamp = now ∧
      d.payload = d0.payload ∧
      (saveStep store cur d0 now).1.meta = some cur ∧
      (saveStep store cur d0 now).2 = (cur + 1) % MAX_SAVE_SLOTS := by
  refine ⟨_, getD_set_self _ _ _ h, ?_, rfl, rfl, rfl, rfl, rfl⟩
  simp [validSave, saveStep, serializeWithoutChecksum]

/-- C6: `SaveManager.load` starts from the metadata slot (slot 0 when the
metadata record is missing or unparseable), walks backward through all
`MAX_SAVE_SLOTS` slots, and validates each candidate by recomputing the
checksum over its serialized form with the checksum field cleared:
(1) load returns null exactly when no probed slot holds a record whose
recomputed checksum matches the stored one (no error is raised);
(2) a successful load returns the first record in the backward walk whose
recomputed checksum matches — every slot probed before it was missing,
unparseable or checksum-mismatched (e.g. one corrupted checksum byte) —
and advances the slot pointer past the loaded slot; and (3) `save`
writes a record that validates (checksum computed with the field
cleared), stamping version and timestamp and advancing the rotation
pointer. -/
theorem save_load_checksum_fallback :
    (∀ store : SaveStore, store.meta = none →
      load store = loadWalk store (probeSequence 0)) ∧
    (∀ store : SaveStore,
      load store = none ↔
        ∀ slot ∈ probeSequence (store.meta.getD 0), ∀ d : SaveData,
          store.slots.getD slot none = some d → validSave d = false) ∧
    (∀ (store : SaveStore) (d : SaveData) (ptr : ℕ),
      load store = some (d, ptr) →
        validSave d = true ∧
        ∃ pre slot suf, probeSequence (store.meta.getD 0) = pre ++ slot :: suf ∧
          store.slots.getD slot none = some d ∧
          ptr = (slot + 1) % MAX_SAVE_SLOTS ∧
          ∀ s ∈ pre, ∀ d' : SaveData,
            store.slots.getD s none = some d' → validSave d' = false) ∧
    (∀ (store : SaveStore) (cur : ℕ) (d0 : SaveData) (now : ℤ),
      cur < store.slots.length →
        ∃ d : SaveData, (saveStep store cur d0 now).1.slots.getD cur none = some d ∧
          validSave d = true ∧ d.version = SAVE_VERSION ∧ d.timestamp = now ∧
          d.payload = d0.payload ∧
          (saveStep store cur d0 now).1.meta = some cur ∧
          (saveStep store cur d0 now).2 = (cur + 1) % MAX_SAVE_SLOTS) := by
  refine ⟨?_, ?_, ?_, ?_⟩
  · intro store hmeta
    rw [load, hmeta]
    rfl
  · intro store
    exact loadWalk_eq_none_iff store (probeSequence (store.meta.getD 0))
  · intro store d ptr h
    exact loadWalk_eq_some store (probeSequence (store.meta.getD 0)) d ptr h
  · intro store cur d0 now h
    exact saveStep_valid store cur d0 now h

/-- The record written by the first demo save. -/
def demoRecordA : SaveData :=
  { version := 1, timestamp := 11, payload := [65]
    checksum := computeChecksum (serializeWithoutChecksum ⟨1, 11, 0, [65]⟩) }

/-- Witness for C6: after two saves and a one-byte corruption of the
second save's checksum, `load` skips the corrupted slot 1 and falls back
to the older valid record in slot 0, advancing the pointer past it. -/
theorem save_load_checksum_fallback_witness :
    validSave demoRecordA = true ∧
    (∃ pre slot suf, probeSequence (demoCorrupt.meta.getD 0) = pre ++ slot :: suf ∧
      demoCorrupt.slots.getD slot none = some demoRecordA ∧
      1 = (slot + 1) % MAX_SAVE_SLOTS ∧
      ∀ s ∈ pre, ∀ d' : SaveData,
        demoCorrupt.slots.getD s none = some d' → validSave d' = false) := by
  have hload : load demoCorrupt = some (demoRecordA, 1) := by
    set_option maxRecDepth 4000 in decide
  exact save_load_checksum_fallback.2.2.1 demoCorrupt demoRecordA 1 hload

/-! ### Progression: C9 -/

theorem unlockMilestone_milestoneProgress (st : ProgressionState) (mid : String) :
    ((unlockMilestone st mid).2).milestoneProgress = st.milestoneProgress := by
  unfold unlockMilestone
  by_cases hc : st.unlockedMilestones.contains mid
  · rw [if_pos hc]
  · rw [if_neg hc]
    cases st.milestones.find? (fun m => m.id == mid) <;> rfl

theorem unlockMilestone_contains (st : ProgressionState) (mid : String)
    (milestone : MilestoneDefinition)
    (hm : st.milestones.find? (fun m => m.id == mid) = some milestone) :
    ((unlockMilestone st mid).2).unlockedMilestones.contains mid = true := by
  unfold unlockMilestone
  by_cases hc : st.unlockedMilestones.contains mid
  · rw [if_pos hc]
    exact hc
  · rw [if_neg hc, hm]
    simp

theorem deliverCore_spec (st1 : ProgressionState) (milestone : MilestoneDefinition)
    (p₀ : MilestoneProgress) (milestoneId itemId : String) (amount : ℚ)
    (inv : String → ℚ)
    (halook : alookup st1.milestoneProgress milestoneId = some p₀)
    (hm1 : st1.milestones.find? (fun m => m.id == milestoneId) = some milestone)
    (ha : 0 ≤ amount) (hinv : 0 ≤ inv itemId)
    (hnodup : (milestone.cost.map RecipeIngredient.itemId).Nodup)
    (hbound : ∀ cc ∈ milestone.cost, p₀.delivered cc.itemId ≤ cc.amount)
    (hflag : p₀.isComplete = costFilled milestone p₀) :
    (p₀.isComplete = true →
      (deliverCore st1 milestone p₀ milestoneId itemId amount inv).1 = 0 ∧
      (deliverCore st1 milestone p₀ milestoneId itemId amount inv).2.2 = inv) ∧
    (milestone.cost.find? (fun cc => cc.itemId == itemId) = none →
      (deliverCore st1 milestone p₀ milestoneId itemId amount inv).1 = 0 ∧
      (deliverCore st1 milestone p₀ milestoneId itemId amount inv).2.2 = inv) ∧
    (∀ req : RecipeIngredient,
      milestone.cost.find? (fun cc => cc.itemId == itemId) = some req →
      p₀.isComplete = false →
      (deliverCore st1 milestone p₀ milestoneId itemId amount inv).1 =
        min amount (min (req.amount - p₀.delivered itemId) (inv itemId))) ∧
    ((deliverCore st1 milestone p₀ milestoneId itemId amount inv).2.2 itemId =
      inv itemId - (deliverCore st1 milestone p₀ milestoneId itemId amount inv).1) ∧
    (∀ cc ∈ milestone.cost,
      (progressOf (deliverCore st1 milestone p₀ milestoneId itemId amount inv).2.1
        milestoneId).delivered cc.itemId ≤ cc.amount) ∧
    ((progressOf (deliverCore st1 milestone p₀ milestoneId itemId amount inv).2.1
        milestoneId).isComplete =
      costFilled milestone
        (progressOf (deliverCore st1 milestone p₀ milestoneId itemId amount inv).2.1
          milestoneId)) ∧
    (p₀.isComplete = false →
      (progressOf (deliverCore st1 milestone p₀ milestoneId itemId amount inv).2.1
        milestoneId).isComplete = true →
      (deliverCore st1 milestone p₀ milestoneId itemId amount
        inv).2.1.unlockedMilestones.contains milestoneId = true) := by
  by_cases hic : p₀.isComplete = true
  · have hR : deliverCore st1 milestone p₀ milestoneId itemId amount inv =
        (0, st1, inv) := by
      unfold deliverCore
      rw [if_pos hic]
    have hp' : progressOf st1 milestoneId = p₀ := by
      simp [progressOf, halook]
    rw [hR]
    refine ⟨fun _ => ⟨rfl, rfl⟩, fun _ => ⟨rfl, rfl⟩, ?_, by simp, ?_, ?_, ?_⟩
    · intro req _ hic2
      rw [hic] at hic2
      cases hic2
    · intro cc hcc
      rw [hp']
      exact hbound cc hcc
    · rw [hp']
      exact hflag
    · intro h1 _
      rw [hic] at h1
      cases h1
  · have hic' : p₀.isComplete = false := by
      revert hic
      cases p₀.isComplete <;> simp
    have hflagF : costFilled milestone p₀ = false := hflag.symm.trans hic'
    cases hreq : milestone.cost.find? (fun cc => cc.itemId == itemId) with
    | none =>
      have hR : deliverCore st1 milestone p₀ milestoneId itemId amount inv =
          (0, st1, inv) := by
        unfold deliverCore
        rw [if_neg hic, hreq]
      have hp' : progressOf st1 milestoneId = p₀ := by
        simp [progressOf, halook]
      rw [hR]
      refine ⟨fun h1 => absurd h1 hic, fun _ => ⟨rfl, rfl⟩, ?_, by simp, ?_, ?_, ?_⟩
      · intro req hreq2 _
        cases hreq2
      · intro cc hcc
        rw [hp']
        exact hbound cc hcc
      · rw [hp']
        exact hflag
      · intro _ h2
        rw [hp', hic'] at h2
        cases h2
    | some req =>
      have hreqmem : req ∈ milestone.cost := List.mem_of_find?_eq_some hreq
      have hreqid : req.itemId = itemId := by simpa using List.find?_some hreq
      have hsn : 0 ≤ req.amount - p₀.delivered itemId := by
        have hb := hbound req hreqmem
        rw [hreqid] at hb
        linarith
      by_cases htd : min amount (req.amount - p₀.delivered itemId) ≤ 0
      · have hR : deliverCore st1 milestone p₀ milestoneId itemId amount inv =
            (0, st1, inv) := by
          unfold deliverCore
          rw [if_neg hic, hreq]
          simp only []
          rw [if_pos htd]
        have hp' : progressOf st1 milestoneId = p₀ := by
          simp [progressOf, halook]
        have htd0 : min amount (req.amount - p₀.delivered itemId) = 0 :=
          le_antisymm htd (le_min ha hsn)
        rw [hR]
        refine ⟨fun h1 => absurd h1 hic, fun _ => ⟨rfl, rfl⟩, ?_, by simp, ?_, ?_, ?_⟩
        · intro req2 hreq2 _
          injection hreq2 with hreq2
          subst hreq2
          rw [← min_assoc, htd0]
          exact (min_eq_left hinv).symm
        · intro cc hcc
          rw [hp']
          exact hbound cc hcc
        · rw [hp']
          exact hflag
        · intro _ h2
          rw [hp', hic'] at h2
          cases h2
      · -- the delivering branch
        have htd' : 0 < min amount (req.amount - p₀.delivered itemId) := not_le.mp htd
        by_cases hrem : 0 < min (inv itemId) (min amount (req.amount - p₀.delivered itemId))
        · -- something is actually removed from the inventory
          have hRF : removeFromPlayer inv itemId
              (min amount (req.amount - p₀.delivered itemId)) =
              (min (inv itemId) (min amount (req.amount - p₀.delivered itemId)),
               Function.update inv itemId
                 (inv itemId -
                   min (inv itemId) (min amount (req.amount - p₀.delivered itemId)))) := by
            unfold removeFromPlayer
            simp only []
            rw [if_pos hrem]
          have hR : deliverCore st1 milestone p₀ milestoneId itemId amount inv =
              (min (inv itemId) (min amount (req.amount - p₀.delivered itemId)),
               (if costFilled milestone
                    { p₀ with delivered :=
                        (Function.update p₀.delivered itemId
                          (p₀.delivered itemId +
                            min (inv itemId)
                              (min amount (req.amount - p₀.delivered itemId)))) } = true
                then
                  (unlockMilestone
                    { st1 with milestoneProgress :=
                        (setAList st1.milestoneProgress milestoneId
                          (if costFilled milestone
                              { p₀ with delivered :=
                                  (Function.update p₀.delivered itemId
                                    (p₀.delivered itemId +
                                      min (inv itemId)
                                        (min amount
                                          (req.amount - p₀.delivered itemId)))) } = true
                           then
                            { { p₀ with delivered :=
                                  (Function.update p₀.delivered itemId
                                    (p₀.delivered itemId +
                                      min (inv itemId)
                                        (min amount
                                          (req.amount - p₀.delivered itemId)))) } with
                              isComplete := true }
                           else
                            { p₀ with delivered :=
                                (Function.update p₀.delivered itemId
                                  (p₀.delivered itemId +
                                    min (inv itemId)
                                      (min amount
                                        (req.amount - p₀.delivered itemId)))) })) }
                    milestoneId).2
                else
                  { st1 with milestoneProgress :=
                      (setAList st1.milestoneProgress milestoneId
                        (if costFilled milestone
                            { p₀ with delivered :=
                                (Function.update p₀.delivered itemId
                                  (p₀.delivered itemId +
                                    min (inv itemId)
                                      (min amount
                                        (req.amount - p₀.delivered itemId)))) } = true
                         then
                          { { p₀ with delivered :=
                                (Function.update p₀.delivered itemId
                                  (p₀.delivered itemId +
                                    min (inv itemId)
                                      (min amount
                                        (req.amount - p₀.delivered itemId)))) } with
                            isComplete := true }
                         else
                          { p₀ with delivered :=
                              (Function.update p₀.delivered itemId
                                (p₀.delivered itemId +
                                  min (inv itemId)
                                    (min amount
                                      (req.amount - p₀.delivered itemId)))) })) }),
               Function.update inv itemId
                 (inv itemId -
                   min (inv itemId) (min amount (req.amount - p₀.delivered itemId)))) := by
            unfold deliverCore
            rw [if_neg hic, hreq]
            simp only []
            rw [if_neg htd, hRF]
            simp only []
            rw [if_pos hrem]
          have hdel : ∀ cc ∈ milestone.cost,
              Function.update p₀.delivered itemId
                (p₀.delivered itemId +
                  min (inv itemId) (min amount (req.amount - p₀.delivered itemId)))
                cc.itemId ≤ cc.amount := by
            intro cc hcc
            by_cases hcid : cc.itemId = itemId
            · rw [hcid, Function.update_same]
              have hcceq : cc = req :=
                List.inj_on_of_nodup_map hnodup hcc hreqmem (hcid.trans hreqid.symm)
              rw [hcceq]
              have h1 : min (inv itemId) (min amount (req.amount - p₀.delivered itemId)) ≤
                  req.amount - p₀.delivered itemId :=
                le_trans (min_le_right _ _) (min_le_right _ _)
              linarith
            · rw [Function.update_noteq hcid]
              exact hbound cc hcc
          by_cases hAD : costFilled milestone
              { p₀ with delivered :=
                  (Function.update p₀.delivered itemId
                    (p₀.delivered itemId +
                      min (inv itemId)
                        (min amount (req.amount - p₀.delivered itemId)))) } = true
          · have hprog : progressOf
                (deliverCore st1 milestone p₀ milestoneId itemId amount inv).2.1
                milestoneId =
                { { p₀ with delivered :=
                      (Function.update p₀.delivered itemId
                        (p₀.delivered itemId +
                          min (inv itemId)
                            (min amount (req.amount - p₀.delivered itemId)))) } with
                  isComplete := true } := by
              rw [hR]
              rw [if_pos hAD]
              unfold progressOf
              rw [unlockMilestone_milestoneProgress]
              simp only []
              rw [if_pos hAD, alookup_setAList_self]
              rfl
            refine ⟨fun h1 => absurd h1 hic, ?_, ?_, ?_, ?_, ?_, ?_⟩
            · intro hreq2
              cases hreq2
            · intro req2 hreq2 _
              injection hreq2 with hreq2
              subst hreq2
              rw [hR]
              simp only []
              rw [min_comm (inv itemId) _, min_assoc]
            · rw [hR]
              simp only []
              rw [Function.update_same]
            · intro cc hcc
              rw [hprog]
              exact hdel cc hcc
            · rw [hprog]
              exact hAD.symm
            · intro _ _
              rw [hR]
              rw [if_pos hAD]
              exact unlockMilestone_contains _ _ milestone hm1
          · have hADf : costFilled milestone
                { p₀ with delivered :=
                    (Function.update p₀.delivered itemId
                      (p₀.delivered itemId +
                        min (inv itemId)
                          (min amount (req.amount - p₀.delivered itemId)))) } = false := by
              revert hAD
              cases costFilled milestone
                { p₀ with delivered :=
                    (Function.update p₀.delivered itemId
                      (p₀.delivered itemId +
                        min (inv itemId)
                          (min amount (req.amount - p₀.delivered itemId)))) } <;> simp
            have hprog : progressOf
                (deliverCore st1 milestone p₀ milestoneId itemId amount inv).2.1
                milestoneId =
                { p₀ with delivered :=
                    (Function.update p₀.delivered itemId
                      (p₀.delivered itemId +
                        min (inv itemId)
                          (min amount (req.amount - p₀.delivered itemId)))) } := by
              rw [hR]
              rw [if_neg hAD]
              unfold progressOf
              simp only []
              rw [if_neg hAD, alookup_setAList_self]
              rfl
            refine ⟨fun h1 => absurd h1 hic, ?_, ?_, ?_, ?_, ?_, ?_⟩
            · intro hreq2
              cases hreq2
            · intro req2 hreq2 _
              injection hreq2 with hreq2
              subst hreq2
              rw [hR]
              simp only []
              rw [min_comm (inv itemId) _, min_assoc]
            · rw [hR]
              simp only []
              rw [Function.update_same]
            · intro cc hcc
              rw [hprog]
              exact hdel cc hcc
            · rw [hprog]
              rw [show ({ p₀ with delivered :=
                  (Function.update p₀.delivered itemId
                    (p₀.delivered itemId +
                      min (inv itemId)
                        (min amount (req.amount - p₀.delivered itemId)))) } :
                  MilestoneProgress).isComplete = p₀.isComplete from rfl]
              rw [hADf]
              exact hic'
            · intro _ h2
              rw [hprog] at h2
              rw [show ({ p₀ with delivered :=
                  (Function.update p₀.delivered itemId
                    (p₀.delivered itemId +
                      min (inv itemId)
                        (min amount (req.amount - p₀.delivered itemId)))) } :
                  MilestoneProgress).isComplete = p₀.isComplete from rfl] at h2
              rw [hic'] at h2
              cases h2
        · -- the inventory is empty for this item: nothing is removed
          have hrem0 : min (inv itemId)
              (min amount (req.amount - p₀.delivered itemId)) = 0 :=
            le_antisymm (not_lt.mp hrem) (le_min hinv (le_min ha hsn))
          have hRF : removeFromPlayer inv itemId
              (min amount (req.amount - p₀.delivered itemId)) =
              (min (inv itemId) (min amount (req.amount - p₀.delivered itemId)), inv) := by
            unfold removeFromPlayer
            simp only []
            rw [if_neg hrem]
          have hR : deliverCore st1 milestone p₀ milestoneId itemId amount inv =
              (min (inv itemId) (min amount (req.amount - p₀.delivered itemId)),
               { st1 with milestoneProgress :=
                  (setAList st1.milestoneProgress milestoneId p₀) },
               inv) := by
            unfold deliverCore
            rw [if_neg hic, hreq]
            simp only []
            rw [if_neg htd, hRF]
            simp only []
            rw [if_neg hrem]
            rw [if_neg (show ¬ costFilled milestone p₀ = true by rw [hflagF]; simp)]
            rw [if_neg (show ¬ costFilled milestone p₀ = true by rw [hflagF]; simp)]
          have hprog : progressOf
              (deliverCore st1 milestone p₀ milestoneId itemId amount inv).2.1
              milestoneId = p₀ := by
            rw [hR]
            unfold progressOf
            simp only []
            rw [alookup_setAList_self]
            rfl
          refine ⟨fun h1 => absurd h1 hic, ?_, ?_, ?_, ?_, ?_, ?_⟩
          · intro hreq2
            cases hreq2
          · intro req2 hreq2 _
            injection hreq2 with hreq2
            subst hreq2
            rw [hR]
            simp only []
            rw [min_comm (inv itemId) _, min_assoc]
          · rw [hR]
            simp only []
            rw [hrem0]
            ring
          · intro cc hcc
            rw [hprog]
            exact hbound cc hcc
          · rw [hprog]
            exact hflag
          · intro _ h2
            rw [hprog, hic'] at h2
            cases h2

/-- C9: `deliverToMilestone` never raises (it is a total function); it
returns 0 when the milestone is unknown (leaving all state unchanged),
already complete, or the item is not part of the milestone's cost; when
the item is a cost item of an incomplete milestone it removes from the
player inventory exactly `min(amount, still-needed, present)` and returns
that number; the per-item delivered tally never exceeds the item's
required amount; and (as an invariant over the states the system
produces, for cost lists with distinct items) the milestone is marked
complete — and unlocked — exactly when every cost item's delivered tally
has reached its required amount. -/
theorem deliver_to_milestone_spec (st : ProgressionState) (milestoneId itemId : String)
    (amount : ℚ) (inv : String → ℚ) :
    (st.milestones.find? (fun m => m.id == milestoneId) = none →
      deliverToMilestone st milestoneId itemId amount inv = (0, st, inv)) ∧
    (∀ milestone : MilestoneDefinition,
      st.milestones.find? (fun m => m.id == milestoneId) = some milestone →
      0 ≤ amount → 0 ≤ inv itemId →
      (milestone.cost.map RecipeIngredient.itemId).Nodup →
      (∀ cc ∈ milestone.cost,
        (progressOf st milestoneId).delivered cc.itemId ≤ cc.amount) →
      (progressOf st milestoneId).isComplete =
        costFilled milestone (progressOf st milestoneId) →
      ((progressOf st milestoneId).isComplete = true →
        (deliverToMilestone st milestoneId itemId amount inv).1 = 0 ∧
        (deliverToMilestone st milestoneId itemId amount inv).2.2 = inv) ∧
      (milestone.cost.find? (fun cc => cc.itemId == itemId) = none →
        (deliverToMilestone st milestoneId itemId amount inv).1 = 0 ∧
        (deliverToMilestone st milestoneId itemId amount inv).2.2 = inv) ∧
      (∀ req : RecipeIngredient,
        milestone.cost.find? (fun cc => cc.itemId == itemId) = some req →
        (progressOf st milestoneId).isComplete = false →
        (deliverToMilestone st milestoneId itemId amount inv).1 =
          min amount
            (min (req.amount - (progressOf st milestoneId).delivered itemId)
              (inv itemId))) ∧
      ((deliverToMilestone st milestoneId itemId amount inv).2.2 itemId =
        inv itemId - (deliverToMilestone st milestoneId itemId amount inv).1) ∧
      (∀ cc ∈ milestone.cost,
        (progressOf (deliverToMilestone st milestoneId itemId amount inv).2.1
          milestoneId).delivered cc.itemId ≤ cc.amount) ∧
      ((progressOf (deliverToMilestone st milestoneId itemId amount inv).2.1
          milestoneId).isComplete =
        costFilled milestone
          (progressOf (deliverToMilestone st milestoneId itemId amount inv).2.1
            milestoneId)) ∧
      ((progressOf st milestoneId).isComplete = false →
        (progressOf (deliverToMilestone st milestoneId itemId amount inv).2.1
          milestoneId).isComplete = true →
        (deliverToMilestone st milestoneId itemId amount
          inv).2.1.unlockedMilestones.contains milestoneId = true)) := by
  constructor
  · intro hnone
    unfold deliverToMilestone
    rw [hnone]
  · intro milestone hm ha hinv hnodup hbound hflag
    cases halook : alookup st.milestoneProgress milestoneId with
    | some p =>
      have hst : deliverToMilestone st milestoneId itemId amount inv =
          deliverCore st milestone p milestoneId itemId amount inv := by
        unfold deliverToMilestone
        rw [hm]
        simp only []
        rw [halook]
      have hp0 : progressOf st milestoneId = p := by
        simp [progressOf, halook]
      rw [hp0] at hbound hflag
      rw [hst, hp0]
      exact deliverCore_spec st milestone p milestoneId itemId amount inv halook hm
        ha hinv hnodup hbound hflag
    | none =>
      have hst : deliverToMilestone st milestoneId itemId amount inv =
          deliverCore
            { st with milestoneProgress :=
                ((milestoneId, freshProgress) :: st.milestoneProgress) }
            milestone freshProgress milestoneId itemId amount inv := by
        unfold deliverToMilestone
        rw [hm]
        simp only []
        rw [halook]
      have hp0 : progressOf st milestoneId = freshProgress := by
        simp [progressOf, halook]
      have halook1 : alookup
          ({ st with milestoneProgress :=
              ((milestoneId, freshProgress) :: st.milestoneProgress) } :
            ProgressionState).milestoneProgress milestoneId = some freshProgress :=
        alookup_cons_self _ _ _
      rw [hp0] at hbound hflag
      rw [hst, hp0]
      exact deliverCore_spec _ milestone freshProgress milestoneId itemId amount inv
        halook1 hm ha hinv hnodup hbound hflag

/-- Witness for C9: delivering 7 iron toward a milestone needing 10 (with
20 iron in the inventory and nothing delivered yet) removes exactly
`min(7, 10, 20) = 7` and leaves 13 iron. -/
theorem deliver_to_milestone_spec_witness :
    (deliverToMilestone demoProgression "hub1" "iron" 7 demoInv).1 = 7 ∧
    (deliverToMilestone demoProgression "hub1" "iron" 7 demoInv).2.2 "iron" = 13 := by
  have h := (deliver_to_milestone_spec demoProgression "hub1" "iron" 7 demoInv).2
    demoMilestone (by rfl) (by norm_num) (by norm_num [demoInv]) (by decide)
    (by decide) (by decide)
  have h3 := h.2.2.1 ⟨"iron", 10⟩ (by rfl) (by rfl)
  have h4 := h.2.2.2.1
  have hval : min (7 : ℚ)
      (min ((10 : ℚ) - (progressOf demoProgression "hub1").delivered "iron")
        (demoInv "iron")) = 7 := by
    norm_num [progressOf, demoProgression, alookup, freshProgress, demoInv]
  rw [hval] at h3
  refine ⟨h3, ?_⟩
  rw [h4, h3]
  norm_num [demoInv]

end Satisfactory
